import Mathlib

/-!
Verification of the CSV-cleaning / graph-loading pipeline
(`clean_data.py` and `create_graph.py`).

The two Python scripts are shallowly embedded as Lean functions:

* CSV cells are `Option String` (`none` models a missing/NaN cell);
  `read_with_nulls` models `pd.read_csv(...).fillna("")`.
* Each logical file is a list of row structures whose named fields are the
  columns the scripts manipulate by name; the remaining columns are a
  `rest` list of (column-name, cell) pairs that pass through untouched.
* Python's `dict(zip(keys, vals))` is an insertion list with
  later-entry-wins lookup (`dictLookup`); a `KeyError` is `Except.error`
  carrying the missing key, exactly the payload of `KeyError(key)`.
* pandas `Series.str.replace("nr:", "")` replaces every non-overlapping
  occurrence left to right (`replaceAllNr`); Python's `str.strip()` drops
  leading and trailing whitespace (`pyStrip`).
* The Neo4j graph is a record of node lists keyed by the merge key used in
  the Cypher queries and of edge lists keyed by their endpoints; `MERGE`
  matches by key and creates only when absent, `SET n += map` overwrites
  the listed properties, `SET n.p = null` removes property `p`, and a
  `MATCH` that finds nothing produces zero result rows, so the remainder
  of that row's query does nothing (and `tx.run` still succeeds).
-/

/-- One CSV cell as stored by pandas before `fillna`: `none` is NaN. -/
abbrev Cell := Option String

/-- `fillna("")` on a single cell. -/
def fillCell (c : Cell) : String := c.getD ""

/-- Fill the named passthrough columns of a row. -/
def fillRest (rest : List (String × Cell)) : List (String × String) :=
  rest.map (fun nv => (nv.1, fillCell nv.2))

/-- `read_with_nulls`: read a CSV and replace every NaN with the empty
string.  Defined identically in `clean_data.py` and `create_graph.py`. -/
def read_with_nulls (f : List (List Cell)) : List (List String) :=
  f.map (fun row => row.map fillCell)

/-- Python `str.strip()` on the character list: drop leading and trailing
whitespace. -/
def pyStripList (l : List Char) : List Char :=
  ((l.dropWhile Char.isWhitespace).reverse.dropWhile Char.isWhitespace).reverse

/-- Python `str.strip()`. -/
def pyStrip (s : String) : String := ⟨pyStripList s.data⟩

/-- pandas `Series.str.replace("nr:", "")` on one string: delete every
non-overlapping occurrence of `nr:`, scanning left to right.  (The call
sites pass a pattern with no regex metacharacters, so the regex and
literal readings of `str.replace` coincide.) -/
def replaceAllNr : List Char → List Char
  | 'n' :: 'r' :: ':' :: rest => replaceAllNr rest
  | c :: rest => c :: replaceAllNr rest
  | [] => []

/-- The `.str.replace("nr:", "")` step applied to one identifier. -/
def stripNr (s : String) : String := ⟨replaceAllNr s.data⟩

/-- The in-memory `Dict[str, int]`, kept as its insertion sequence. -/
abbrev IdMap := List (String × Nat)

/-- Python `dict` lookup over the insertion sequence: an entry inserted
later shadows an earlier entry with the same key. -/
def dictLookup : IdMap → String → Option Nat
  | [], _ => none
  | (k', v) :: rest, k =>
    match dictLookup rest k with
    | some v' => some v'
    | none => if k' = k then some v else none

/-- `lookup_id`: `id_map[key]`.  A missing key raises `KeyError(key)`,
modelled as `Except.error key`. -/
def lookup_id (id_map : IdMap) (key : String) : Except String Nat :=
  match dictLookup id_map key with
  | some v => Except.ok v
  | none => Except.error key

/-- Pair each list element with `n`, `n+1`, ...: the dataframe row index
shifted to start at `n` (the scripts use `df.index + 1`). -/
def withIdsFrom (n : Nat) : List α → List (Nat × α)
  | [] => []
  | a :: l => (n, a) :: withIdsFrom (n + 1) l

/-- A raw row of the anchor (business-application) file: the `PERSID`
column plus the remaining named columns. -/
structure AppRawRow where
  persid : Cell
  rest : List (String × Cell)
deriving DecidableEq

/-- A cleaned application row: `PERSID` is now the 1-based row number. -/
structure AppCleanRow where
  persid : Nat
  rest : List (String × String)
deriving DecidableEq

/-- The trimmed string identifiers of the anchor file, in row order
(`[item.strip() for item in list(apps_df["PERSID"])]` after `fillna`). -/
def appPersids (rows : List AppRawRow) : List String :=
  rows.map (fun r => pyStrip (fillCell r.persid))

/-- `clean_app_file`: replace the string `PERSID` column by the 1-based
row number and return the cleaned rows together with
`dict(zip(persids, list(apps_df["PERSID"])))`. -/
def clean_app_file (rows : List AppRawRow) : List AppCleanRow × IdMap :=
  let outRows := (withIdsFrom 1 rows).map (fun p => ⟨p.1, fillRest p.2.rest⟩)
  (outRows, (appPersids rows).zip (outRows.map AppCleanRow.persid))

/-- `mapM` over `Except`, written out so the first raised error is
explicit: pandas `Series.apply` evaluates row by row and propagates the
first exception. -/
def exceptMap (f : α → Except String β) : List α → Except String (List β)
  | [] => Except.ok []
  | a :: l =>
    match f a with
    | Except.error e => Except.error e
    | Except.ok b =>
      match exceptMap f l with
      | Except.error e => Except.error e
      | Except.ok bs => Except.ok (b :: bs)

/-- A raw organization row: the `PERSID` foreign key, the `CMDB_Name`
column (used later as the Org merge key), and the passthrough columns. -/
structure OrgRawRow where
  persid : Cell
  cmdbName : Cell
  rest : List (String × Cell)
deriving DecidableEq

/-- A cleaned organization row: `APP_PERSID` holds the looked-up integer. -/
structure OrgCleanRow where
  appPersid : Nat
  cmdbName : String
  rest : List (String × String)
deriving DecidableEq

/-- `clean_org_file`: strip `nr:` from the `PERSID` column, look every
row up in the anchor map (first miss raises), and replace the string
column by the integer `APP_PERSID` column. -/
def clean_org_file (rows : List OrgRawRow) (app_id_map : IdMap) :
    Except String (List OrgCleanRow) :=
  exceptMap
    (fun r =>
      match lookup_id app_id_map (stripNr (fillCell r.persid)) with
      | Except.error e => Except.error e
      | Except.ok i => Except.ok ⟨i, fillCell r.cmdbName, fillRest r.rest⟩)
    rows

/-- A raw AHD (help-desk hits) row: `PERSID` foreign key, `Name` and
`AHDhits` (read by the loader), and passthrough columns. -/
structure AhdRawRow where
  persid : Cell
  name : Cell
  ahdhits : Cell
  rest : List (String × Cell)
deriving DecidableEq

/-- A cleaned AHD row.  Note there is no `PERSID` field: the cleaner
drops the string column and names the integer column `APP_PERSID`. -/
structure AhdCleanRow where
  appPersid : Nat
  name : String
  ahdhits : String
  rest : List (String × String)
deriving DecidableEq

/-- `clean_ahd_file`: same shape as `clean_org_file`. -/
def clean_ahd_file (rows : List AhdRawRow) (app_id_map : IdMap) :
    Except String (List AhdCleanRow) :=
  exceptMap
    (fun r =>
      match lookup_id app_id_map (stripNr (fillCell r.persid)) with
      | Except.error e => Except.error e
      | Except.ok i =>
        Except.ok ⟨i, fillCell r.name, fillCell r.ahdhits, fillRest r.rest⟩)
    rows

/-- A raw OS-instance row.  The identifier column is the one whose
corrupted header `os_<BOM>PersID` the script renames to `PERSID` before
doing anything else; the rename is header metadata only, so the model
starts from the renamed column. -/
structure OsRawRow where
  persid : Cell
  rest : List (String × Cell)
deriving DecidableEq

/-- A cleaned OS-instance row: `OS_PERSID` is the 1-based row number. -/
structure OsCleanRow where
  osPersid : Nat
  rest : List (String × String)
deriving DecidableEq

/-- `clean_os_instances_file`: identical in shape to `clean_app_file`
but on the OS-instance namespace; it takes no anchor map. -/
def clean_os_instances_file (rows : List OsRawRow) : List OsCleanRow × IdMap :=
  let outRows := (withIdsFrom 1 rows).map (fun p => ⟨p.1, fillRest p.2.rest⟩)
  (outRows,
    (rows.map (fun r => pyStrip (fillCell r.persid))).zip
      (outRows.map OsCleanRow.osPersid))

/-- A raw similarity row: two prefixed foreign keys plus the
`similaritybertcomp` and `CompID` columns read by the loader. -/
structure SimRawRow where
  persid1 : Cell
  persid2 : Cell
  simbert : Cell
  compId : Cell
  rest : List (String × Cell)
deriving DecidableEq

/-- A cleaned similarity row: `PERSID_1` and `PERSID_2` integer columns. -/
structure SimCleanRow where
  persid1 : Nat
  persid2 : Nat
  simbert : String
  compId : String
  rest : List (String × String)
deriving DecidableEq

/-- `clean_similarity_connectedcomps_file`: strip both key columns, then
look up column `PersID-1` for all rows, then column `PersID-2` for all
rows (pandas evaluates the first `apply` completely before the second). -/
def clean_similarity_connectedcomps_file (rows : List SimRawRow)
    (app_id_map : IdMap) : Except String (List SimCleanRow) :=
  match exceptMap (fun r => lookup_id app_id_map (stripNr (fillCell r.persid1))) rows with
  | Except.error e => Except.error e
  | Except.ok ids1 =>
    match exceptMap (fun r => lookup_id app_id_map (stripNr (fillCell r.persid2))) rows with
    | Except.error e => Except.error e
    | Except.ok ids2 =>
      Except.ok
        ((rows.zip (ids1.zip ids2)).map
          (fun p =>
            ⟨p.2.1, p.2.2, fillCell p.1.simbert, fillCell p.1.compId,
              fillRest p.1.rest⟩))

/-- The five raw input files handed to `clean_data.main`. -/
structure Inputs where
  apps : List AppRawRow
  orgs : List OrgRawRow
  ahds : List AhdRawRow
  oss : List OsRawRow
  sims : List SimRawRow
deriving DecidableEq

/-- Everything `clean_data.main` produces: the five cleaned files and the
two in-memory id maps. -/
structure Outputs where
  appOut : List AppCleanRow
  appMap : IdMap
  orgOut : List OrgCleanRow
  ahdOut : List AhdCleanRow
  osOut : List OsCleanRow
  osMap : IdMap
  simOut : List SimCleanRow
deriving DecidableEq

/-- `clean_data.main`: the cleaning pipeline in source order (apps, orgs,
AHD, OS instances, similarity); an uncaught `KeyError` aborts the run. -/
def cleanMain (inp : Inputs) : Except String Outputs :=
  match clean_org_file inp.orgs (clean_app_file inp.apps).2 with
  | Except.error e => Except.error e
  | Except.ok orgOut =>
    match clean_ahd_file inp.ahds (clean_app_file inp.apps).2 with
    | Except.error e => Except.error e
    | Except.ok ahdOut =>
      match clean_similarity_connectedcomps_file inp.sims (clean_app_file inp.apps).2 with
      | Except.error e => Except.error e
      | Except.ok simOut =>
        Except.ok ⟨(clean_app_file inp.apps).1, (clean_app_file inp.apps).2, orgOut, ahdOut,
          (clean_os_instances_file inp.oss).1, (clean_os_instances_file inp.oss).2, simOut⟩

/-- A Cypher parameter / property value as used by these queries. -/
inductive Value where
  | str : String → Value
  | int : Nat → Value
  | null : Value
deriving DecidableEq

/-- A property map (node or relationship properties, or the `$data`
parameter map sent with a query). -/
abbrev Props := List (String × Value)

/-- Cypher map access `m.k`: `null` when the key is absent. -/
def mapAccess (m : Props) (k : String) : Value :=
  match m.find? (fun kv => kv.1 = k) with
  | some kv => kv.2
  | none => Value.null

/-- Insert or overwrite one property (value known not to be null). -/
def insertProp (p : Props) (k : String) (v : Value) : Props :=
  if k ∈ p.map Prod.fst then
    p.map (fun kv => if kv.1 = k then (kv.1, v) else kv)
  else p ++ [(k, v)]

/-- Cypher `SET n.k = v`: setting `null` removes the property. -/
def setProp (p : Props) (k : String) (v : Value) : Props :=
  match v with
  | Value.null => p.filter (fun kv => kv.1 ≠ k)
  | v => insertProp p k v

/-- Cypher `SET n += fields`. -/
def setProps (p : Props) (fields : Props) : Props :=
  fields.foldl (fun acc kv => setProp acc kv.1 kv.2) p

/-- The graph store.  Nodes are kept per label and identified by the
merge key the loader uses for that label (`App.PERSID`, `Org.CMDB_Name`,
`AHD.name`); relationships are identified by their endpoint keys.
`hits` carries the `nHits` property, `similar` the
`similarityConnectedComp` and `compID` properties. -/
structure Graph where
  apps : List (Nat × Props)
  orgs : List (String × Props)
  ahds : List (String × Props)
  usedBy : List (Nat × String)
  hits : List ((Nat × String) × Value)
  similar : List ((Nat × Nat) × (Value × Value))
deriving DecidableEq

/-- Cypher `MERGE (n:L {key}) SET n += fields` on one node list:
match by key; create (with the merge-pattern property) only if absent. -/
def mergeNode [DecidableEq κ] (nodes : List (κ × Props)) (key : κ)
    (keyProp : String × Value) (fields : Props) : List (κ × Props) :=
  if key ∈ nodes.map Prod.fst then
    nodes.map (fun n => if n.1 = key then (n.1, setProps n.2 fields) else n)
  else nodes ++ [(key, setProps [keyProp] fields)]

/-- The `$data` map sent for one cleaned application row: the cleaned
file's columns are `PERSID` (integer) followed by the passthrough
columns. -/
def appFields (r : AppCleanRow) : Props :=
  ("PERSID", Value.int r.persid) :: r.rest.map (fun nv => (nv.1, Value.str nv.2))

/-- The `$data` map for one cleaned organization row: `APP_PERSID`
first, then the original columns (among them `CMDB_Name`). -/
def orgFields (r : OrgCleanRow) : Props :=
  ("APP_PERSID", Value.int r.appPersid) :: ("CMDB_Name", Value.str r.cmdbName)
    :: r.rest.map (fun nv => (nv.1, Value.str nv.2))

/-- The `$data` map for one cleaned AHD row.  The cleaned file has no
`PERSID` column (the cleaner renamed it to `APP_PERSID`), so no
`"PERSID"` key occurs here. -/
def ahdFields (r : AhdCleanRow) : Props :=
  ("APP_PERSID", Value.int r.appPersid) :: ("Name", Value.str r.name)
    :: ("AHDhits", Value.str r.ahdhits)
    :: r.rest.map (fun nv => (nv.1, Value.str nv.2))

/-- The `$data` map for one cleaned similarity row. -/
def simFields (r : SimCleanRow) : Props :=
  ("PERSID_1", Value.int r.persid1) :: ("PERSID_2", Value.int r.persid2)
    :: ("similaritybertcomp", Value.str r.simbert)
    :: ("CompID", Value.str r.compId)
    :: r.rest.map (fun nv => (nv.1, Value.str nv.2))

/-- One `tx.run` of `_create_app_nodes`:
`MERGE (app:App {PERSID: fields.PERSID}) SET app += fields`. -/
def create_app_node_row (g : Graph) (r : AppCleanRow) : Graph :=
  { g with
    apps := mergeNode g.apps r.persid ("PERSID", Value.int r.persid) (appFields r) }

/-- `_create_app_nodes`: one merge per row of the cleaned app file. -/
def create_app_nodes (g : Graph) (rows : List AppCleanRow) : Graph :=
  rows.foldl create_app_node_row g

/-- One `tx.run` of `_create_org_nodes_and_rels`:
`MATCH (app:App {PERSID: fields.APP_PERSID})` then
`MERGE (org:Org {CMDB_Name: fields.CMDB_Name}) SET org += fields` and
`MERGE (app)-[:USED_BY]->(org)`.  A `MATCH` with no result yields zero
rows, so the merges do not run and the query still succeeds. -/
def create_org_node_and_rels_row (g : Graph) (r : OrgCleanRow) : Graph :=
  if r.appPersid ∈ g.apps.map Prod.fst then
    { g with
      orgs := mergeNode g.orgs r.cmdbName ("CMDB_Name", Value.str r.cmdbName)
        (orgFields r)
      usedBy :=
        if (r.appPersid, r.cmdbName) ∈ g.usedBy then g.usedBy
        else g.usedBy ++ [(r.appPersid, r.cmdbName)] }
  else g

/-- `_create_org_nodes_and_rels`: one query per cleaned organization row. -/
def create_org_nodes_and_rels (g : Graph) (rows : List OrgCleanRow) : Graph :=
  rows.foldl create_org_node_and_rels_row g

/-- One `tx.run` of `_create_ahd_nodes_and_rels`:
`MATCH (app:App {PERSID: fields.APP_PERSID})`,
`MERGE (ahd:AHD {name: fields.Name}) SET ahd.PERSID = fields.PERSID`,
`MERGE (app)-[r:HITS]->(ahd) SET r.nHits = fields.AHDhits`.
`fields.PERSID` is evaluated with `mapAccess`, i.e. it is `null`
whenever the row has no `PERSID` column. -/
def create_ahd_node_and_rels_row (g : Graph) (r : AhdCleanRow) : Graph :=
  if r.appPersid ∈ g.apps.map Prod.fst then
    { g with
      ahds :=
        if r.name ∈ g.ahds.map Prod.fst then
          g.ahds.map (fun n =>
            if n.1 = r.name then (n.1, setProp n.2 "PERSID" (mapAccess (ahdFields r) "PERSID"))
            else n)
        else g.ahds ++ [(r.name,
          setProp [("name", Value.str r.name)] "PERSID" (mapAccess (ahdFields r) "PERSID"))]
      hits :=
        if (r.appPersid, r.name) ∈ g.hits.map Prod.fst then
          g.hits.map (fun e =>
            if e.1 = (r.appPersid, r.name) then (e.1, mapAccess (ahdFields r) "AHDhits") else e)
        else g.hits ++ [((r.appPersid, r.name), mapAccess (ahdFields r) "AHDhits")] }
  else g

/-- `_create_ahd_nodes_and_rels`: one query per cleaned AHD row. -/
def create_ahd_nodes_and_rels (g : Graph) (rows : List AhdCleanRow) : Graph :=
  rows.foldl create_ahd_node_and_rels_row g

/-- One `tx.run` of `_create_similarity_connectedcomps_rels`: two
`MATCH`es (both App nodes must exist), then
`MERGE (app1)-[r:IS_SIMILAR_TO]->(app2)` with the two `SET` properties. -/
def create_similarity_row (g : Graph) (r : SimCleanRow) : Graph :=
  if r.persid1 ∈ g.apps.map Prod.fst ∧ r.persid2 ∈ g.apps.map Prod.fst then
    { g with
      similar :=
        if (r.persid1, r.persid2) ∈ g.similar.map Prod.fst then
          g.similar.map (fun e =>
            if e.1 = (r.persid1, r.persid2) then
              (e.1, (mapAccess (simFields r) "similaritybertcomp",
                mapAccess (simFields r) "CompID"))
            else e)
        else g.similar ++ [((r.persid1, r.persid2),
          (mapAccess (simFields r) "similaritybertcomp", mapAccess (simFields r) "CompID"))] }
  else g

/-- `_create_similarity_connectedcomps_rels`: one query per row. -/
def create_similarity_connectedcomps_rels (g : Graph) (rows : List SimCleanRow) : Graph :=
  rows.foldl create_similarity_row g

/-- The four cleaned CSVs the loader reads. -/
structure CleanFiles where
  apps : List AppCleanRow
  orgs : List OrgCleanRow
  ahds : List AhdCleanRow
  sims : List SimCleanRow
deriving DecidableEq

/-- `Neo4jConnection.run`: the four load phases in source order.  The
index-creation phase (`CREATE INDEX ... IF NOT EXISTS`) does not change
the graph's nodes or relationships and is omitted from the state. -/
def run_load (g : Graph) (f : CleanFiles) : Graph :=
  create_similarity_connectedcomps_rels
    (create_ahd_nodes_and_rels
      (create_org_nodes_and_rels (create_app_nodes g f.apps) f.orgs)
      f.ahds)
    f.sims

/-- The merge keys of every node and relationship in the store: App ids,
Org names, AHD names, USED_BY endpoints, HITS endpoints, IS_SIMILAR_TO
endpoints.  Two graphs with the same `keyState` have the same sets and
counts of nodes and relationships. -/
def keyState (g : Graph) :
    List Nat × List String × List String × List (Nat × String)
      × List (Nat × String) × List (Nat × Nat) :=
  (g.apps.map Prod.fst, g.orgs.map Prod.fst, g.ahds.map Prod.fst,
    g.usedBy, g.hits.map Prod.fst, g.similar.map Prod.fst)

/-- App node merge keys (`App.PERSID`). -/
def appKeys (g : Graph) : List Nat := g.apps.map Prod.fst

/-- Org node merge keys (`Org.CMDB_Name`). -/
def orgKeys (g : Graph) : List String := g.orgs.map Prod.fst

/-- AHD node merge keys (`AHD.name`). -/
def ahdKeys (g : Graph) : List String := g.ahds.map Prod.fst

/-- HITS relationship endpoint keys. -/
def hitKeys (g : Graph) : List (Nat × String) := g.hits.map Prod.fst

/-- IS_SIMILAR_TO relationship endpoint keys. -/
def simKeys (g : Graph) : List (Nat × Nat) := g.similar.map Prod.fst

lemma keyState_eq (g : Graph) :
    keyState g = (appKeys g, orgKeys g, ahdKeys g, g.usedBy, hitKeys g, simKeys g) := rfl

lemma withIdsFrom_map_fst (n : Nat) (l : List α) :
    (withIdsFrom n l).map Prod.fst = List.range' n l.length := by
  induction l generalizing n with
  | nil => rfl
  | cons a t ih => simp [withIdsFrom, List.range'_succ, ih]

lemma withIdsFrom_map_snd (n : Nat) (l : List α) :
    (withIdsFrom n l).map Prod.snd = l := by
  induction l generalizing n with
  | nil => rfl
  | cons a t ih => simp [withIdsFrom, ih]

lemma clean_app_file_keys (rows : List AppRawRow) :
    (clean_app_file rows).1.map AppCleanRow.persid = List.range' 1 rows.length := by
  show ((withIdsFrom 1 rows).map _).map AppCleanRow.persid = _
  rw [List.map_map]
  exact withIdsFrom_map_fst 1 rows

lemma clean_os_file_keys (rows : List OsRawRow) :
    (clean_os_instances_file rows).1.map OsCleanRow.osPersid = List.range' 1 rows.length := by
  show ((withIdsFrom 1 rows).map _).map OsCleanRow.osPersid = _
  rw [List.map_map]
  exact withIdsFrom_map_fst 1 rows

lemma dictLookup_eq_none (m : IdMap) (k : String) (h : k ∉ m.map Prod.fst) :
    dictLookup m k = none := by
  induction m with
  | nil => rfl
  | cons kv t ih =>
    obtain ⟨k', v⟩ := kv
    simp only [List.map_cons, List.mem_cons, not_or] at h
    simp only [dictLookup, ih h.2]
    rw [if_neg (fun he => h.1 he.symm)]

lemma dictLookup_mem_keys (m : IdMap) (k : String) (v : Nat)
    (h : dictLookup m k = some v) : k ∈ m.map Prod.fst := by
  by_contra hk
  rw [dictLookup_eq_none m k hk] at h
  exact Option.noConfusion h

lemma dictLookup_zip_range' :
    ∀ (l : List String) (s : Nat), l.Nodup →
      ∀ i (hi : i < l.length),
        dictLookup (l.zip (List.range' s l.length)) (l.get ⟨i, hi⟩) = some (s + i) := by
  intro l
  induction l with
  | nil => intro s _ i hi; exact absurd hi (Nat.not_lt_zero i)
  | cons a t ih =>
    intro s h i hi
    have hz : (a :: t).zip (List.range' s (a :: t).length)
        = (a, s) :: t.zip (List.range' (s + 1) t.length) := by
      simp [List.range'_succ]
    rw [hz]
    rcases List.nodup_cons.mp h with ⟨ha, ht⟩
    cases i with
    | zero =>
      have hnone : dictLookup (t.zip (List.range' (s + 1) t.length)) a = none := by
        apply dictLookup_eq_none
        rw [List.map_fst_zip t _ (by simp)]
        exact ha
      simp [dictLookup, hnone]
    | succ j =>
      have hj : j < t.length := Nat.succ_lt_succ_iff.mp hi
      have hrec := ih (s + 1) ht j hj
      have hkey : (a :: t).get ⟨j + 1, hi⟩ = t.get ⟨j, hj⟩ := rfl
      rw [hkey]
      simp only [dictLookup, hrec]
      exact congrArg some (by omega)

/-- Claim C1 (amended).  For every anchor file `clean_app_file` assigns
the integer surrogate keys exactly `1..N` in row order, with no
duplicates and no gaps; and, provided the trimmed string identifiers of
the rows are pairwise distinct, the returned mapping sends each trimmed
identifier to its row's assigned integer.  (Without distinctness the
mapping keeps only the last occurrence of a repeated identifier; see the
counterexample.) -/
theorem claimC1 (rows : List AppRawRow) :
    (clean_app_file rows).1.map AppCleanRow.persid = List.range' 1 rows.length ∧
    ((appPersids rows).Nodup →
      ∀ i (hi : i < (appPersids rows).length),
        dictLookup (clean_app_file rows).2 ((appPersids rows).get ⟨i, hi⟩)
          = some (i + 1)) := by
  constructor
  · exact clean_app_file_keys rows
  · intro hnd i hi
    have hmap : (clean_app_file rows).2
        = (appPersids rows).zip (List.range' 1 (appPersids rows).length) := by
      show (appPersids rows).zip ((clean_app_file rows).1.map AppCleanRow.persid) = _
      rw [clean_app_file_keys rows]
      simp [appPersids]
    rw [hmap, dictLookup_zip_range' (appPersids rows) 1 hnd i hi]
    exact congrArg some (by omega)

/-- Claim C1, counterexample to the mapping clause as stated: an anchor
file whose two rows carry the same identifier string `A`.  The assigned
keys are `[1, 2]` as required, but the returned mapping sends `A` to
`2`, the key of the *last* row, not to row 0's key `1` — so it does not
send each row's trimmed identifier to that row's assigned integer. -/
theorem claimC1_cex :
    (clean_app_file [⟨some "A", []⟩, ⟨some "A", []⟩]).1.map AppCleanRow.persid = [1, 2] ∧
    dictLookup (clean_app_file [⟨some "A", []⟩, ⟨some "A", []⟩]).2 "A" = some 2 ∧
    ¬ dictLookup (clean_app_file [⟨some "A", []⟩, ⟨some "A", []⟩]).2 "A" = some 1 := by
  refine ⟨by decide, by decide, by decide⟩

/-- Claim C1, witness: a two-row anchor file with distinct identifiers
(one of them needing trimming), run through the amended theorem. -/
theorem claimC1_witness :
    (clean_app_file [⟨some " A ", []⟩, ⟨some "B", []⟩]).1.map AppCleanRow.persid
      = List.range' 1 2 ∧
    dictLookup (clean_app_file [⟨some " A ", []⟩, ⟨some "B", []⟩]).2 "A" = some 1 := by
  refine ⟨(claimC1 [⟨some " A ", []⟩, ⟨some "B", []⟩]).1, ?_⟩
  have h := (claimC1 [⟨some " A ", []⟩, ⟨some "B", []⟩]).2 (by decide) 0 (by decide)
  exact h

lemma exceptMap_total (f : α → Except String β) :
    ∀ (l : List α), (∀ a ∈ l, ∃ b, f a = Except.ok b) →
      ∃ out, exceptMap f l = Except.ok out ∧ out.length = l.length ∧
        ∀ i (hi : i < l.length) (ho : i < out.length),
          f (l.get ⟨i, hi⟩) = Except.ok (out.get ⟨i, ho⟩) := by
  intro l
  induction l with
  | nil =>
    intro _
    exact ⟨[], rfl, rfl, fun i hi => absurd hi (Nat.not_lt_zero i)⟩
  | cons a t ih =>
    intro h
    obtain ⟨b, hb⟩ := h a (List.mem_cons_self a t)
    obtain ⟨out, hout, hlen, hidx⟩ := ih (fun x hx => h x (List.mem_cons_of_mem a hx))
    refine ⟨b :: out, ?_, by simp [hlen], ?_⟩
    · simp [exceptMap, hb, hout]
    · intro i hi ho
      cases i with
      | zero => exact hb
      | succ j => exact hidx j (Nat.succ_lt_succ_iff.mp hi) (Nat.succ_lt_succ_iff.mp ho)

lemma exceptMap_first_error (f : α → Except String β) (e : String) :
    ∀ (l : List α) (i : Nat) (hi : i < l.length),
      (∀ j (hj : j < i), ∃ b, f (l.get ⟨j, Nat.lt_trans hj hi⟩) = Except.ok b) →
      f (l.get ⟨i, hi⟩) = Except.error e → exceptMap f l = Except.error e := by
  intro l
  induction l with
  | nil => intro i hi; exact absurd hi (Nat.not_lt_zero i)
  | cons a t ih =>
    intro i hi hok herr
    cases i with
    | zero =>
      have ha : f a = Except.error e := herr
      simp [exceptMap, ha]
    | succ j =>
      obtain ⟨b, hb⟩ := hok 0 (Nat.succ_pos j)
      have hb' : f a = Except.ok b := hb
      have hj : j < t.length := Nat.succ_lt_succ_iff.mp hi
      have ht : exceptMap f t = Except.error e := by
        refine ih j hj (fun m hm => hok (m + 1) (Nat.succ_lt_succ hm)) herr
      simp [exceptMap, hb', ht]

lemma lookup_id_ok (m : IdMap) (k : String) (v : Nat) :
    lookup_id m k = Except.ok v ↔ dictLookup m k = some v := by
  unfold lookup_id
  rcases h : dictLookup m k with _ | w <;> simp

/-- Claim C2.  For each dependent file (organization, AHD, similarity):
if every row's stripped foreign-key string is a key of the anchor
mapping, cleaning succeeds, the output has exactly as many rows as the
input, and each output row's foreign-key integer is the anchor mapping's
value for that row's stripped identifier. -/
theorem claimC2 :
    (∀ (m : IdMap) (rows : List OrgRawRow),
      (∀ r ∈ rows, (dictLookup m (stripNr (fillCell r.persid))).isSome) →
      ∃ out, clean_org_file rows m = Except.ok out ∧ out.length = rows.length ∧
        ∀ i (hi : i < rows.length) (ho : i < out.length),
          dictLookup m (stripNr (fillCell ((rows.get ⟨i, hi⟩).persid)))
            = some ((out.get ⟨i, ho⟩).appPersid)) ∧
    (∀ (m : IdMap) (rows : List AhdRawRow),
      (∀ r ∈ rows, (dictLookup m (stripNr (fillCell r.persid))).isSome) →
      ∃ out, clean_ahd_file rows m = Except.ok out ∧ out.length = rows.length ∧
        ∀ i (hi : i < rows.length) (ho : i < out.length),
          dictLookup m (stripNr (fillCell ((rows.get ⟨i, hi⟩).persid)))
            = some ((out.get ⟨i, ho⟩).appPersid)) ∧
    (∀ (m : IdMap) (rows : List SimRawRow),
      (∀ r ∈ rows, (dictLookup m (stripNr (fillCell r.persid1))).isSome
          ∧ (dictLookup m (stripNr (fillCell r.persid2))).isSome) →
      ∃ out, clean_similarity_connectedcomps_file rows m = Except.ok out ∧
        out.length = rows.length ∧
        ∀ i (hi : i < rows.length) (ho : i < out.length),
          dictLookup m (stripNr (fillCell ((rows.get ⟨i, hi⟩).persid1)))
              = some ((out.get ⟨i, ho⟩).persid1) ∧
            dictLookup m (stripNr (fillCell ((rows.get ⟨i, hi⟩).persid2)))
              = some ((out.get ⟨i, ho⟩).persid2)) := by
  refine ⟨?_, ?_, ?_⟩
  · intro m rows h
    obtain ⟨out, hout, hlen, hidx⟩ :=
      exceptMap_total
        (fun r =>
          match lookup_id m (stripNr (fillCell r.persid)) with
          | Except.error e => Except.error e
          | Except.ok i =>
            Except.ok (⟨i, fillCell r.cmdbName, fillRest r.rest⟩ : OrgCleanRow))
        rows
        (by
          intro r hr
          obtain ⟨v, hv⟩ := Option.isSome_iff_exists.mp (h r hr)
          exact ⟨⟨v, fillCell r.cmdbName, fillRest r.rest⟩, by simp [lookup_id, hv]⟩)
    refine ⟨out, hout, hlen, ?_⟩
    intro i hi ho
    have hf := hidx i hi ho
    set r := rows.get ⟨i, hi⟩ with hr
    rcases hv : dictLookup m (stripNr (fillCell r.persid)) with _ | v
    · simp [lookup_id, hv] at hf
    · simp only [lookup_id, hv] at hf
      have : (⟨v, fillCell r.cmdbName, fillRest r.rest⟩ : OrgCleanRow)
          = out.get ⟨i, ho⟩ := by exact Except.ok.inj hf
      rw [← this]
  · intro m rows h
    obtain ⟨out, hout, hlen, hidx⟩ :=
      exceptMap_total
        (fun r =>
          match lookup_id m (stripNr (fillCell r.persid)) with
          | Except.error e => Except.error e
          | Except.ok i =>
            Except.ok (⟨i, fillCell r.name, fillCell r.ahdhits, fillRest r.rest⟩ : AhdCleanRow))
        rows
        (by
          intro r hr
          obtain ⟨v, hv⟩ := Option.isSome_iff_exists.mp (h r hr)
          exact ⟨⟨v, fillCell r.name, fillCell r.ahdhits, fillRest r.rest⟩,
            by simp [lookup_id, hv]⟩)
    refine ⟨out, hout, hlen, ?_⟩
    intro i hi ho
    have hf := hidx i hi ho
    set r := rows.get ⟨i, hi⟩ with hr
    rcases hv : dictLookup m (stripNr (fillCell r.persid)) with _ | v
    · simp [lookup_id, hv] at hf
    · simp only [lookup_id, hv] at hf
      have : (⟨v, fillCell r.name, fillCell r.ahdhits, fillRest r.rest⟩ : AhdCleanRow)
          = out.get ⟨i, ho⟩ := by exact Except.ok.inj hf
      rw [← this]
  · intro m rows h
    obtain ⟨ids1, h1, hlen1, hidx1⟩ :=
      exceptMap_total (fun r => lookup_id m (stripNr (fillCell r.persid1))) rows
        (by
          intro r hr
          obtain ⟨v, hv⟩ := Option.isSome_iff_exists.mp (h r hr).1
          exact ⟨v, by simp [lookup_id, hv]⟩)
    obtain ⟨ids2, h2, hlen2, hidx2⟩ :=
      exceptMap_total (fun r => lookup_id m (stripNr (fillCell r.persid2))) rows
        (by
          intro r hr
          obtain ⟨v, hv⟩ := Option.isSome_iff_exists.mp (h r hr).2
          exact ⟨v, by simp [lookup_id, hv]⟩)
    have hout : clean_similarity_connectedcomps_file rows m
        = Except.ok
          ((rows.zip (ids1.zip ids2)).map
            (fun p =>
              ⟨p.2.1, p.2.2, fillCell p.1.simbert, fillCell p.1.compId,
                fillRest p.1.rest⟩)) := by
      simp [clean_similarity_connectedcomps_file, h1, h2]
    refine ⟨_, hout, ?_, ?_⟩
    · simp [hlen1, hlen2]
    · intro i hi ho
      simp only [List.length_map] at ho
      have hiz : i < (rows.zip (ids1.zip ids2)).length := ho
      have hi1 : i < ids1.length := by omega
      have hi2 : i < ids2.length := by omega
      have hget : (rows.zip (ids1.zip ids2)).get ⟨i, hiz⟩
          = (rows.get ⟨i, hi⟩, ids1.get ⟨i, hi1⟩, ids2.get ⟨i, hi2⟩) := by
        simp [List.get_eq_getElem, List.getElem_zip]
      have dict1 := (lookup_id_ok m _ _).mp (hidx1 i hi hi1)
      have dict2 := (lookup_id_ok m _ _).mp (hidx2 i hi hi2)
      constructor
      · simpa [List.get_eq_getElem, List.getElem_map, List.getElem_zip] using dict1
      · simpa [List.get_eq_getElem, List.getElem_map, List.getElem_zip] using dict2

/-- Claim C2, witness: a one-row organization file, a one-row AHD file
and a one-row similarity file, all of whose stripped keys are in the
anchor map `[("A", 1)]`, run through the theorem. -/
theorem claimC2_witness :
    (∃ out, clean_org_file [⟨some "nr:A", some "Org1", []⟩] [("A", 1)] = Except.ok out ∧
      out.length = 1 ∧
      ∀ i (hi : i < ([⟨some "nr:A", some "Org1", []⟩] : List OrgRawRow).length)
        (ho : i < out.length),
        dictLookup [("A", 1)]
            (stripNr (fillCell ((([⟨some "nr:A", some "Org1", []⟩] : List OrgRawRow).get
              ⟨i, hi⟩).persid)))
          = some ((out.get ⟨i, ho⟩).appPersid)) ∧
    (∃ out, clean_ahd_file [⟨some "A", some "HD", some "7", []⟩] [("A", 1)] = Except.ok out ∧
      out.length = 1 ∧
      ∀ i (hi : i < ([⟨some "A", some "HD", some "7", []⟩] : List AhdRawRow).length)
        (ho : i < out.length),
        dictLookup [("A", 1)]
            (stripNr (fillCell ((([⟨some "A", some "HD", some "7", []⟩] : List AhdRawRow).get
              ⟨i, hi⟩).persid)))
          = some ((out.get ⟨i, ho⟩).appPersid)) ∧
    (∃ out, clean_similarity_connectedcomps_file
        [⟨some "nr:A", some "A", some "0.9", some "3", []⟩] [("A", 1)] = Except.ok out ∧
      out.length = 1 ∧
      ∀ i (hi : i < ([⟨some "nr:A", some "A", some "0.9", some "3", []⟩] : List SimRawRow).length)
        (ho : i < out.length),
        dictLookup [("A", 1)]
            (stripNr (fillCell ((([⟨some "nr:A", some "A", some "0.9", some "3", []⟩] :
              List SimRawRow).get ⟨i, hi⟩).persid1)))
            = some ((out.get ⟨i, ho⟩).persid1) ∧
          dictLookup [("A", 1)]
              (stripNr (fillCell ((([⟨some "nr:A", some "A", some "0.9", some "3", []⟩] :
                List SimRawRow).get ⟨i, hi⟩).persid2)))
            = some ((out.get ⟨i, ho⟩).persid2)) := by
  refine ⟨claimC2.1 [("A", 1)] _ (by decide), claimC2.2.1 [("A", 1)] _ (by decide),
    claimC2.2.2 [("A", 1)] _ (by decide)⟩

/-- Claim C5 (amended).  For every dependent-file cleaner — organization,
AHD, and similarity — a row whose stripped key is missing from the
anchor mapping makes cleaning abort immediately with an error that
carries exactly the offending stripped key (the `KeyError` payload), and
no output rows are produced at all — so no null, default or sentinel
foreign key is ever written.  Stated as a first-miss characterization:
for the organization and AHD cleaners the first row in file order whose
lookup misses determines the error; the similarity cleaner evaluates
all of column `PersID-1` before any of column `PersID-2`, so the first
miss in column 1 determines the error, and if column 1 is entirely
mapped, the first miss in column 2 does.  The error does *not* identify
the source row; see the counterexample. -/
theorem claimC5 :
    (∀ (m : IdMap) (rows : List OrgRawRow) (i : Nat) (hi : i < rows.length),
      (∀ j (hj : j < i),
        (dictLookup m (stripNr (fillCell ((rows.get ⟨j, Nat.lt_trans hj hi⟩).persid)))).isSome) →
      dictLookup m (stripNr (fillCell ((rows.get ⟨i, hi⟩).persid))) = none →
      clean_org_file rows m
        = Except.error (stripNr (fillCell ((rows.get ⟨i, hi⟩).persid)))) ∧
    (∀ (m : IdMap) (rows : List AhdRawRow) (i : Nat) (hi : i < rows.length),
      (∀ j (hj : j < i),
        (dictLookup m (stripNr (fillCell ((rows.get ⟨j, Nat.lt_trans hj hi⟩).persid)))).isSome) →
      dictLookup m (stripNr (fillCell ((rows.get ⟨i, hi⟩).persid))) = none →
      clean_ahd_file rows m
        = Except.error (stripNr (fillCell ((rows.get ⟨i, hi⟩).persid)))) ∧
    (∀ (m : IdMap) (rows : List SimRawRow) (i : Nat) (hi : i < rows.length),
      (∀ j (hj : j < i),
        (dictLookup m (stripNr (fillCell ((rows.get ⟨j, Nat.lt_trans hj hi⟩).persid1)))).isSome) →
      dictLookup m (stripNr (fillCell ((rows.get ⟨i, hi⟩).persid1))) = none →
      clean_similarity_connectedcomps_file rows m
        = Except.error (stripNr (fillCell ((rows.get ⟨i, hi⟩).persid1)))) ∧
    (∀ (m : IdMap) (rows : List SimRawRow) (i : Nat) (hi : i < rows.length),
      (∀ r ∈ rows, (dictLookup m (stripNr (fillCell r.persid1))).isSome) →
      (∀ j (hj : j < i),
        (dictLookup m (stripNr (fillCell ((rows.get ⟨j, Nat.lt_trans hj hi⟩).persid2)))).isSome) →
      dictLookup m (stripNr (fillCell ((rows.get ⟨i, hi⟩).persid2))) = none →
      clean_similarity_connectedcomps_file rows m
        = Except.error (stripNr (fillCell ((rows.get ⟨i, hi⟩).persid2)))) := by
  refine ⟨?_, ?_, ?_, ?_⟩
  · intro m rows i hi hok hmiss
    simp only [List.get_eq_getElem] at hmiss
    refine exceptMap_first_error _ _ rows i hi ?_ ?_
    · intro j hj
      obtain ⟨v, hv⟩ := Option.isSome_iff_exists.mp (hok j hj)
      simp only [List.get_eq_getElem] at hv
      exact ⟨⟨v, fillCell ((rows.get ⟨j, Nat.lt_trans hj hi⟩).cmdbName),
        fillRest ((rows.get ⟨j, Nat.lt_trans hj hi⟩).rest)⟩, by simp [lookup_id, hv]⟩
    · simp [lookup_id, hmiss]
  · intro m rows i hi hok hmiss
    simp only [List.get_eq_getElem] at hmiss
    refine exceptMap_first_error _ _ rows i hi ?_ ?_
    · intro j hj
      obtain ⟨v, hv⟩ := Option.isSome_iff_exists.mp (hok j hj)
      simp only [List.get_eq_getElem] at hv
      exact ⟨⟨v, fillCell ((rows.get ⟨j, Nat.lt_trans hj hi⟩).name),
        fillCell ((rows.get ⟨j, Nat.lt_trans hj hi⟩).ahdhits),
        fillRest ((rows.get ⟨j, Nat.lt_trans hj hi⟩).rest)⟩, by simp [lookup_id, hv]⟩
    · simp [lookup_id, hmiss]
  · intro m rows i hi hok hmiss
    simp only [List.get_eq_getElem] at hmiss
    have h1 : exceptMap (fun r => lookup_id m (stripNr (fillCell r.persid1))) rows
        = Except.error (stripNr (fillCell ((rows.get ⟨i, hi⟩).persid1))) := by
      refine exceptMap_first_error _ _ rows i hi ?_ ?_
      · intro j hj
        obtain ⟨v, hv⟩ := Option.isSome_iff_exists.mp (hok j hj)
        simp only [List.get_eq_getElem] at hv
        exact ⟨v, by simp [lookup_id, hv]⟩
      · simp [lookup_id, hmiss]
    show (match exceptMap (fun r => lookup_id m (stripNr (fillCell r.persid1))) rows with
      | Except.error e => Except.error e
      | Except.ok ids1 => _) = _
    rw [h1]
  · intro m rows i hi hall hok hmiss
    simp only [List.get_eq_getElem] at hmiss
    obtain ⟨ids1, h1, _, _⟩ :=
      exceptMap_total (fun r => lookup_id m (stripNr (fillCell r.persid1))) rows
        (fun r hr => by
          obtain ⟨v, hv⟩ := Option.isSome_iff_exists.mp (hall r hr)
          exact ⟨v, by simp [lookup_id, hv]⟩)
    have h2 : exceptMap (fun r => lookup_id m (stripNr (fillCell r.persid2))) rows
        = Except.error (stripNr (fillCell ((rows.get ⟨i, hi⟩).persid2))) := by
      refine exceptMap_first_error _ _ rows i hi ?_ ?_
      · intro j hj
        obtain ⟨v, hv⟩ := Option.isSome_iff_exists.mp (hok j hj)
        simp only [List.get_eq_getElem] at hv
        exact ⟨v, by simp [lookup_id, hv]⟩
      · simp [lookup_id, hmiss]
    unfold clean_similarity_connectedcomps_file
    rw [h1, h2]

/-- Claim C5, counterexample to "identifies ... the source row": two
organization files against the anchor map `[("A", 1)]`.  In the first
file the missing key `X` sits in row 0, in the second in row 1, yet both
runs raise exactly the same error value (`KeyError("X")` carries only
the key) — so the raised error does not identify the source row. -/
theorem claimC5_cex :
    clean_org_file [⟨some "nr:X", some "O1", []⟩] [("A", 1)] = Except.error "X" ∧
    clean_org_file [⟨some "nr:A", some "O0", []⟩, ⟨some "X", some "O1", []⟩] [("A", 1)]
      = Except.error "X" := by
  exact ⟨rfl, rfl⟩

/-- Claim C5, witness: a miss at row 1 of a two-row organization file,
at row 0 of a one-row AHD file, in column 1 at row 1 of a two-row
similarity file, and in column 2 at row 0 of a one-row similarity file
whose column 1 is fully mapped — each run through the amended theorem. -/
theorem claimC5_witness :
    clean_org_file [⟨some "nr:A", some "O0", []⟩, ⟨some "nr:X", some "O1", []⟩] [("A", 1)]
      = Except.error "X" ∧
    clean_ahd_file [⟨some "Y", some "HD", some "7", []⟩] [("A", 1)] = Except.error "Y" ∧
    clean_similarity_connectedcomps_file
        [⟨some "nr:A", some "A", some "0.9", some "3", []⟩,
          ⟨some "Z", some "A", some "0.8", some "4", []⟩] [("A", 1)]
      = Except.error "Z" ∧
    clean_similarity_connectedcomps_file
        [⟨some "A", some "W", some "0.9", some "3", []⟩] [("A", 1)]
      = Except.error "W" := by
  have hi1 : (1 : Nat) < 2 := by omega
  have hi0 : (0 : Nat) < 1 := by omega
  refine ⟨claimC5.1 [("A", 1)]
      [⟨some "nr:A", some "O0", []⟩, ⟨some "nr:X", some "O1", []⟩] 1 hi1
      (fun j hj => by
        have hz : j = 0 := by omega
        subst hz
        rfl)
      (by rfl),
    claimC5.2.1 [("A", 1)] [⟨some "Y", some "HD", some "7", []⟩] 0 hi0
      (fun j hj => absurd hj (Nat.not_lt_zero j)) (by rfl),
    claimC5.2.2.1 [("A", 1)]
      [⟨some "nr:A", some "A", some "0.9", some "3", []⟩,
        ⟨some "Z", some "A", some "0.8", some "4", []⟩] 1 hi1
      (fun j hj => by
        have hz : j = 0 := by omega
        subst hz
        rfl)
      (by rfl),
    claimC5.2.2.2 [("A", 1)] [⟨some "A", some "W", some "0.9", some "3", []⟩] 0 hi0
      (by decide) (fun j hj => absurd hj (Nat.not_lt_zero j)) (by rfl)⟩

lemma replaceAllNr_not_contains :
    ∀ (l : List Char), ¬ ['n', 'r', ':'] <:+: l → replaceAllNr l = l := by
  intro l
  induction l using replaceAllNr.induct with
  | case1 rest ih =>
    intro h
    exact absurd ⟨[], rest, rfl⟩ h
  | case2 c rest h1 ih =>
    intro h
    have ht : ¬ ['n', 'r', ':'] <:+: rest := fun hin => h (List.infix_cons hin)
    rw [replaceAllNr.eq_2 c rest h1, ih ht]
  | case3 => intro _; rfl

/-- Claim C3 (amended).  The `.str.replace("nr:", "")` step is total,
but it is a *replace-all*, not a prefix strip: an identifier that does
not contain `nr:` anywhere passes through unchanged, and a leading
`nr:` is removed — after which the scan continues over the rest of the
string, so occurrences of `nr:` in non-prefix positions are also
deleted and the operation is not idempotent in general (see the
counterexample). -/
theorem claimC3 :
    (∀ s : String, ¬ ['n', 'r', ':'] <:+: s.data → stripNr s = s) ∧
    (∀ s : String, stripNr ("nr:" ++ s) = stripNr s) := by
  constructor
  · intro s h
    show (⟨replaceAllNr s.data⟩ : String) = s
    rw [replaceAllNr_not_contains s.data h]
  · intro s
    rfl

/-- Claim C3, counterexample.  `xnr:y` does not start with `nr:`, yet
the stripping step changes it to `xy`; and the step is not idempotent:
`nnr:r:x` becomes `nr:x`, which a second application turns into `x`. -/
theorem claimC3_cex :
    ¬ ("nr:".data <+: "xnr:y".data) ∧ stripNr "xnr:y" = "xy" ∧
    stripNr (stripNr "nnr:r:x") ≠ stripNr "nnr:r:x" := by
  refine ⟨by decide, rfl, by decide⟩

/-- Claim C3, witness: an identifier without the substring `nr:` passes
through unchanged, and a prefixed identifier loses the prefix. -/
theorem claimC3_witness :
    ¬ ['n', 'r', ':'] <:+: "abc".data ∧ stripNr "abc" = "abc" ∧
    stripNr ("nr:" ++ "abc") = stripNr "abc" := by
  refine ⟨by decide, claimC3.1 "abc" (by decide), claimC3.2 "abc"⟩

lemma head?_dropWhile_not (p : α → Bool) :
    ∀ (l : List α) (c : α), (l.dropWhile p).head? = some c → p c = false := by
  intro l
  induction l with
  | nil => intro c h; cases h
  | cons a t ih =>
    intro c h
    by_cases hp : p a
    · rw [List.dropWhile_cons_of_pos hp] at h
      exact ih c h
    · rw [List.dropWhile_cons_of_neg hp] at h
      cases h
      simpa using hp

lemma getLast?_dropWhile_of_ne_nil (p : α → Bool) :
    ∀ (l : List α), l.dropWhile p ≠ [] → (l.dropWhile p).getLast? = l.getLast? := by
  intro l
  induction l with
  | nil => intro h; exact absurd rfl h
  | cons a t ih =>
    intro h
    by_cases hp : p a
    · rw [List.dropWhile_cons_of_pos hp] at h ⊢
      rcases ht : t with _ | ⟨b, t'⟩
      · rw [ht] at h; exact absurd rfl h
      · rw [← ht, ih h, ht, List.getLast?_cons_cons]
    · rw [List.dropWhile_cons_of_neg hp]

lemma pyStripList_head_not_ws (l : List Char) (c : Char)
    (h : (pyStripList l).head? = some c) : c.isWhitespace = false := by
  unfold pyStripList at h
  rw [List.head?_reverse] at h
  set Y := l.dropWhile Char.isWhitespace with hY
  have hne : Y.reverse.dropWhile Char.isWhitespace ≠ [] := by
    intro hnil
    rw [hnil] at h
    cases h
  rw [getLast?_dropWhile_of_ne_nil _ _ hne, List.getLast?_reverse] at h
  rw [hY] at h
  exact head?_dropWhile_not _ l c h

lemma pyStripList_getLast_not_ws (l : List Char) (c : Char)
    (h : (pyStripList l).getLast? = some c) : c.isWhitespace = false := by
  unfold pyStripList at h
  rw [List.getLast?_reverse] at h
  exact head?_dropWhile_not _ _ c h

lemma pyStrip_fixed_head (s : String) (c : Char)
    (h : (pyStrip s).data.head? = some c) : c.isWhitespace = false :=
  pyStripList_head_not_ws s.data c h

lemma pyStrip_fixed_getLast (s : String) (c : Char)
    (h : (pyStrip s).data.getLast? = some c) : c.isWhitespace = false :=
  pyStripList_getLast_not_ws s.data c h

lemma clean_app_map_keys (rows : List AppRawRow) :
    (clean_app_file rows).2.map Prod.fst = appPersids rows := by
  show ((appPersids rows).zip ((clean_app_file rows).1.map AppCleanRow.persid)).map Prod.fst = _
  apply List.map_fst_zip
  rw [clean_app_file_keys rows]
  simp [appPersids]

/-- Claim C10.  The anchor mapping's keys are the whitespace-trimmed
identifiers, but the dependent-file rewriters look up the stripped
foreign-key string without trimming it: whenever the stripped string
still carries leading or trailing whitespace, `lookup_id` raises
`KeyError` on it — regardless of what the anchor file contained, and in
particular even when the trimmed form of the identifier is a key of the
mapping — and the organization cleaner therefore aborts on such a row. -/
theorem claimC10 (rows : List AppRawRow) (fk : String)
    (h : ((stripNr fk).data.head?.any Char.isWhitespace
        || (stripNr fk).data.getLast?.any Char.isWhitespace) = true) :
    lookup_id (clean_app_file rows).2 (stripNr fk) = Except.error (stripNr fk) ∧
    ∀ (cm : Cell) (rest : List (String × Cell)) (more : List OrgRawRow),
      clean_org_file (⟨some fk, cm, rest⟩ :: more) (clean_app_file rows).2
        = Except.error (stripNr fk) := by
  have hnone : dictLookup (clean_app_file rows).2 (stripNr fk) = none := by
    apply dictLookup_eq_none
    rw [clean_app_map_keys]
    intro hmem
    obtain ⟨r, _, hr⟩ := List.mem_map.mp hmem
    rcases Bool.or_eq_true_iff.mp h with hh | hl
    · rcases hc : (stripNr fk).data.head? with _ | c
      · rw [hc] at hh; cases hh
      · rw [hc] at hh
        simp only [Option.any_some] at hh
        have hfix := pyStrip_fixed_head (fillCell r.persid) c (by rw [hr]; exact hc)
        simp [hfix] at hh
    · rcases hc : (stripNr fk).data.getLast? with _ | c
      · rw [hc] at hl; cases hl
      · rw [hc] at hl
        simp only [Option.any_some] at hl
        have hfix := pyStrip_fixed_getLast (fillCell r.persid) c (by rw [hr]; exact hc)
        simp [hfix] at hl
  constructor
  · simp [lookup_id, hnone]
  · intro cm rest more
    show exceptMap _ _ = _
    have hfst :
        (match lookup_id (clean_app_file rows).2 (stripNr (fillCell (some fk))) with
          | Except.error e => Except.error e
          | Except.ok i =>
            Except.ok (⟨i, fillCell cm, fillRest rest⟩ : OrgCleanRow))
          = Except.error (stripNr fk) := by
      simp [lookup_id, hnone, fillCell]
    simp [exceptMap, hfst]

/-- Claim C10, witness: anchor file with single identifier `A`, a
foreign key `A ` (trailing blank, no `nr:` prefix so stripping leaves it
unchanged): the lookup misses and the organization cleaner aborts, even
though the trimmed form `A` is mapped to `1`. -/
theorem claimC10_witness :
    lookup_id (clean_app_file [⟨some "A", []⟩]).2 (stripNr "A ") = Except.error (stripNr "A ") ∧
    clean_org_file [⟨some "A ", some "O", []⟩] (clean_app_file [⟨some "A", []⟩]).2
      = Except.error (stripNr "A ") ∧
    dictLookup (clean_app_file [⟨some "A", []⟩]).2 "A" = some 1 := by
  have h := claimC10 [⟨some "A", []⟩] "A " (by decide)
  exact ⟨h.1, h.2 (some "O") [] [], by decide⟩

lemma clean_app_file_rests (rows : List AppRawRow) :
    (clean_app_file rows).1.map AppCleanRow.rest
      = rows.map (fun r => fillRest r.rest) := by
  show ((withIdsFrom 1 rows).map _).map AppCleanRow.rest = _
  rw [List.map_map]
  have : ((withIdsFrom 1 rows).map Prod.snd).map (fun r => fillRest r.rest)
      = rows.map (fun r => fillRest r.rest) := by
    rw [withIdsFrom_map_snd]
  rw [← this, List.map_map]
  rfl

/-- Claim C7.  A blank/missing (NaN) source cell is represented as the
empty string from the moment the file is read: `read_with_nulls`
preserves the table's shape and sends every `none` cell to `""`; the
cleaners forward the filled cells unchanged into their outputs (shown
for the anchor cleaner's passthrough columns); and every property value
the loader builds from a cleaned row is a real string or integer, never
the null marker. -/
theorem claimC7 :
    (∀ (f : List (List Cell)) (i j : Nat) (hi : i < f.length)
        (hj : j < (f.get ⟨i, hi⟩).length),
      (f.get ⟨i, hi⟩).get ⟨j, hj⟩ = none →
      ((read_with_nulls f).getD i []).getD j " " = "") ∧
    (∀ rows : List AppRawRow,
      (clean_app_file rows).1.map AppCleanRow.rest
        = rows.map (fun r => fillRest r.rest)) ∧
    (∀ (r : AppCleanRow) (kv : String × Value), kv ∈ appFields r → kv.2 ≠ Value.null) := by
  refine ⟨?_, clean_app_file_rests, ?_⟩
  · intro f i j hi hj hnone
    have hi' : i < (read_with_nulls f).length := by
      simpa [read_with_nulls] using hi
    have hrow : (read_with_nulls f).getD i [] = (f.get ⟨i, hi⟩).map fillCell := by
      rw [List.getD_eq_getElem _ _ hi']
      simp [read_with_nulls]
    rw [hrow]
    have hj' : j < ((f.get ⟨i, hi⟩).map fillCell).length := by simpa using hj
    rw [List.getD_eq_getElem _ _ hj']
    simp only [List.get_eq_getElem] at hnone
    simp [List.getElem_map, hnone, fillCell]
  · intro r kv hkv
    rcases List.mem_cons.mp hkv with hhd | htl
    · rw [hhd]
      simp
    · obtain ⟨nv, _, hnv⟩ := List.mem_map.mp htl
      rw [← hnv]
      simp

/-- Claim C7, witness: a table whose single row has a missing second
cell; reading yields `""` there, the anchor cleaner forwards filled
passthrough cells, and a loader property value is non-null. -/
theorem claimC7_witness :
    ((read_with_nulls [[some "x", none]]).getD 0 []).getD 1 " " = "" ∧
    (clean_app_file [⟨some "A", [("Desc", none)]⟩]).1.map AppCleanRow.rest
      = ([⟨some "A", [("Desc", none)]⟩] : List AppRawRow).map (fun r => fillRest r.rest) ∧
    (("Desc", Value.str "") ∈ appFields ⟨1, [("Desc", "")]⟩ →
      (("Desc", Value.str "") : String × Value).2 ≠ Value.null) := by
  refine ⟨claimC7.1 [[some "x", none]] 0 1 (by decide) (by decide) (by decide),
    claimC7.2.1 [⟨some "A", [("Desc", none)]⟩],
    fun hm => claimC7.2.2 ⟨1, [("Desc", "")]⟩ ("Desc", Value.str "") hm⟩

/-- Claim C4 (amended).  In the graph-loading phase, a dependent row
whose referenced App key has no App node in the store is *silently
skipped*: the `MATCH` clause yields zero rows, so the query writes
nothing for that row — the dependent node/edge is indeed never created
without its App — but the write is not a failure and the load phase
continues with the remaining rows (see the counterexample). -/
theorem claimC4 :
    (∀ (g : Graph) (r : OrgCleanRow), r.appPersid ∉ g.apps.map Prod.fst →
      create_org_node_and_rels_row g r = g) ∧
    (∀ (g : Graph) (r : AhdCleanRow), r.appPersid ∉ g.apps.map Prod.fst →
      create_ahd_node_and_rels_row g r = g) ∧
    (∀ (g : Graph) (r : SimCleanRow),
      r.persid1 ∉ g.apps.map Prod.fst ∨ r.persid2 ∉ g.apps.map Prod.fst →
      create_similarity_row g r = g) := by
  refine ⟨?_, ?_, ?_⟩
  · intro g r h
    unfold create_org_node_and_rels_row
    rw [if_neg h]
  · intro g r h
    unfold create_ahd_node_and_rels_row
    rw [if_neg h]
  · intro g r h
    unfold create_similarity_row
    rw [if_neg (by tauto)]

/-- Claim C4, counterexample.  A store holding only App 1 and an
organization file whose row 0 references the absent App 2 and whose
row 1 references App 1: the phase completes without error, writes
nothing at all for row 0, and still processes row 1 — contradicting
"hard failure that aborts the current load phase". -/
theorem claimC4_cex :
    create_org_nodes_and_rels ⟨[(1, [("PERSID", Value.int 1)])], [], [], [], [], []⟩
        [⟨2, "OrgMiss", []⟩, ⟨1, "OrgHit", []⟩]
      = ⟨[(1, [("PERSID", Value.int 1)])],
          [("OrgHit", [("CMDB_Name", Value.str "OrgHit"), ("APP_PERSID", Value.int 1)])],
          [], [(1, "OrgHit")], [], []⟩ := by
  rfl

/-- Claim C4, witness: the empty store, one row of each dependent kind,
all referencing App 1 which is absent — each row-write leaves the store
unchanged. -/
theorem claimC4_witness :
    create_org_node_and_rels_row ⟨[], [], [], [], [], []⟩ ⟨1, "O", []⟩
        = ⟨[], [], [], [], [], []⟩ ∧
    create_ahd_node_and_rels_row ⟨[], [], [], [], [], []⟩ ⟨1, "HD", "42", []⟩
        = ⟨[], [], [], [], [], []⟩ ∧
    create_similarity_row ⟨[], [], [], [], [], []⟩ ⟨1, 2, "0.9", "3", []⟩
        = ⟨[], [], [], [], [], []⟩ := by
  exact ⟨claimC4.1 _ _ (by decide), claimC4.2.1 _ _ (by decide),
    claimC4.2.2 _ _ (Or.inl (by decide))⟩

/-- Claim C6, evaluated at a failing input (code bug).  The loader's
AHD query does `SET ahd.PERSID = fields.PERSID`, but the cleaned AHD
file has no `PERSID` column (the cleaner renamed it to `APP_PERSID`),
so `fields.PERSID` is `null` and the AHD node is left *without* any id
property — the claim's "sets that node's integer id property to the
row's integer app key" never happens.  The node upsert keyed by `name`
and the `HITS` edge with the row's hit count do happen as claimed. -/
theorem claimC6_bug :
    create_ahd_node_and_rels_row ⟨[(1, [("PERSID", Value.int 1)])], [], [], [], [], []⟩
        ⟨1, "HD", "42", []⟩
      = ⟨[(1, [("PERSID", Value.int 1)])], [], [("HD", [("name", Value.str "HD")])], [],
          [((1, "HD"), Value.str "42")], []⟩ ∧
    mapAccess (ahdFields ⟨1, "HD", "42", []⟩) "PERSID" = Value.null ∧
    mapAccess [("name", Value.str "HD")] "PERSID" = Value.null := by
  exact ⟨rfl, rfl, rfl⟩

lemma cleanMain_ok_parts (inp : Inputs) (o : Outputs)
    (h : cleanMain inp = Except.ok o) :
    o.osOut = (clean_os_instances_file inp.oss).1 ∧
    o.osMap = (clean_os_instances_file inp.oss).2 ∧
    o.appMap = (clean_app_file inp.apps).2 := by
  unfold cleanMain at h
  rcases h1 : clean_org_file inp.orgs (clean_app_file inp.apps).2 with e1 | orgOut
  · rw [h1] at h; cases h
  · rw [h1] at h
    rcases h2 : clean_ahd_file inp.ahds (clean_app_file inp.apps).2 with e2 | ahdOut
    · rw [h2] at h; cases h
    · rw [h2] at h
      rcases h3 : clean_similarity_connectedcomps_file inp.sims (clean_app_file inp.apps).2
        with e3 | simOut
      · rw [h3] at h; cases h
      · rw [h3] at h
        cases h
        exact ⟨rfl, rfl, rfl⟩

/-- Claim C8.  The OS-instance cleaner assigns its own 1-based
sequential keys by row order and is independent of the anchor mapping:
two runs of the pipeline on inputs that agree on the OS-instance file —
however much their anchor files (and hence anchor mappings) differ —
produce identical cleaned OS rows and identical OS id maps; and neither
run's anchor mapping is affected by the OS file, since it is exactly
the map built from the anchor file alone. -/
theorem claimC8 (in1 in2 : Inputs) (o1 o2 : Outputs) (hos : in1.oss = in2.oss)
    (h1 : cleanMain in1 = Except.ok o1) (h2 : cleanMain in2 = Except.ok o2) :
    o1.osOut = o2.osOut ∧ o1.osMap = o2.osMap ∧
    o1.osOut.map OsCleanRow.osPersid = List.range' 1 in1.oss.length ∧
    o1.appMap = (clean_app_file in1.apps).2 := by
  obtain ⟨ha1, ha2, ha3⟩ := cleanMain_ok_parts in1 o1 h1
  obtain ⟨hb1, hb2, hb3⟩ := cleanMain_ok_parts in2 o2 h2
  refine ⟨?_, ?_, ?_, ha3⟩
  · rw [ha1, hb1, hos]
  · rw [ha2, hb2, hos]
  · rw [ha1, clean_os_file_keys]

/-- Claim C8, witness: two runs whose anchor files differ (`[A]` versus
empty) but whose OS-instance file is the same one-row file; both runs
succeed, and the theorem yields identical OS outputs with keys `1..N`
and an anchor map depending on the anchor file alone. -/
theorem claimC8_witness :
    (⟨[⟨1, []⟩], [("A", 1)], [], [], [⟨1, []⟩], [("O", 1)], []⟩ : Outputs).osOut
        = (⟨[], [], [], [], [⟨1, []⟩], [("O", 1)], []⟩ : Outputs).osOut ∧
    (⟨[⟨1, []⟩], [("A", 1)], [], [], [⟨1, []⟩], [("O", 1)], []⟩ : Outputs).osMap
        = (⟨[], [], [], [], [⟨1, []⟩], [("O", 1)], []⟩ : Outputs).osMap ∧
    (⟨[⟨1, []⟩], [("A", 1)], [], [], [⟨1, []⟩], [("O", 1)], []⟩ : Outputs).osOut.map
        OsCleanRow.osPersid
        = List.range' 1 (⟨[⟨some "A", []⟩], [], [], [⟨some "O", []⟩], []⟩ : Inputs).oss.length ∧
    (⟨[⟨1, []⟩], [("A", 1)], [], [], [⟨1, []⟩], [("O", 1)], []⟩ : Outputs).appMap
        = (clean_app_file (⟨[⟨some "A", []⟩], [], [], [⟨some "O", []⟩], []⟩ : Inputs).apps).2 := by
  exact claimC8 ⟨[⟨some "A", []⟩], [], [], [⟨some "O", []⟩], []⟩
    ⟨[], [], [], [⟨some "O", []⟩], []⟩
    ⟨[⟨1, []⟩], [("A", 1)], [], [], [⟨1, []⟩], [("O", 1)], []⟩
    ⟨[], [], [], [], [⟨1, []⟩], [("O", 1)], []⟩ rfl rfl rfl

lemma map_fst_update [DecidableEq κ] (nodes : List (κ × β)) (key : κ) (f : κ × β → β) :
    (nodes.map (fun n => if n.1 = key then (n.1, f n) else n)).map Prod.fst
      = nodes.map Prod.fst := by
  rw [List.map_map]
  apply List.map_congr_left
  intro n _
  by_cases h : n.1 = key <;> simp [h]

lemma mergeNode_map_fst [DecidableEq κ] (nodes : List (κ × Props)) (key : κ)
    (keyProp : String × Value) (fields : Props) :
    (mergeNode nodes key keyProp fields).map Prod.fst
      = if key ∈ nodes.map Prod.fst then nodes.map Prod.fst
        else nodes.map Prod.fst ++ [key] := by
  unfold mergeNode
  split
  · exact map_fst_update nodes key (fun n => setProps n.2 fields)
  · simp

lemma create_app_nodes_cons (g : Graph) (r : AppCleanRow) (rows : List AppCleanRow) :
    create_app_nodes g (r :: rows) = create_app_nodes (create_app_node_row g r) rows := rfl

lemma create_org_phase_cons (g : Graph) (r : OrgCleanRow) (rows : List OrgCleanRow) :
    create_org_nodes_and_rels g (r :: rows)
      = create_org_nodes_and_rels (create_org_node_and_rels_row g r) rows := rfl

lemma create_ahd_phase_cons (g : Graph) (r : AhdCleanRow) (rows : List AhdCleanRow) :
    create_ahd_nodes_and_rels g (r :: rows)
      = create_ahd_nodes_and_rels (create_ahd_node_and_rels_row g r) rows := rfl

lemma create_sim_phase_cons (g : Graph) (r : SimCleanRow) (rows : List SimCleanRow) :
    create_similarity_connectedcomps_rels g (r :: rows)
      = create_similarity_connectedcomps_rels (create_similarity_row g r) rows := rfl

lemma app_row_frame (g : Graph) (r : AppCleanRow) :
    (create_app_node_row g r).orgs = g.orgs ∧ (create_app_node_row g r).ahds = g.ahds ∧
    (create_app_node_row g r).usedBy = g.usedBy ∧ (create_app_node_row g r).hits = g.hits ∧
    (create_app_node_row g r).similar = g.similar :=
  ⟨rfl, rfl, rfl, rfl, rfl⟩

lemma app_phase_frame (g : Graph) (rows : List AppCleanRow) :
    (create_app_nodes g rows).orgs = g.orgs ∧ (create_app_nodes g rows).ahds = g.ahds ∧
    (create_app_nodes g rows).usedBy = g.usedBy ∧ (create_app_nodes g rows).hits = g.hits ∧
    (create_app_nodes g rows).similar = g.similar := by
  induction rows generalizing g with
  | nil => exact ⟨rfl, rfl, rfl, rfl, rfl⟩
  | cons r rows ih =>
    rw [create_app_nodes_cons]
    exact ih (create_app_node_row g r)

lemma appKeys_app_row (g : Graph) (r : AppCleanRow) :
    appKeys (create_app_node_row g r)
      = if r.persid ∈ appKeys g then appKeys g else appKeys g ++ [r.persid] :=
  mergeNode_map_fst g.apps r.persid ("PERSID", Value.int r.persid) (appFields r)

lemma appKeys_app_row_mem (g : Graph) (r : AppCleanRow) :
    r.persid ∈ appKeys (create_app_node_row g r) := by
  rw [appKeys_app_row]
  split
  · assumption
  · simp

lemma appKeys_app_row_mono (g : Graph) (r : AppCleanRow) (k : Nat) (h : k ∈ appKeys g) :
    k ∈ appKeys (create_app_node_row g r) := by
  rw [appKeys_app_row]
  split
  · exact h
  · exact List.mem_append_left _ h

lemma appKeys_app_phase_mono (g : Graph) (rows : List AppCleanRow) (k : Nat)
    (h : k ∈ appKeys g) : k ∈ appKeys (create_app_nodes g rows) := by
  induction rows generalizing g with
  | nil => exact h
  | cons r rows ih =>
    rw [create_app_nodes_cons]
    exact ih (create_app_node_row g r) (appKeys_app_row_mono g r k h)

lemma appKeys_app_phase_mem (g : Graph) (rows : List AppCleanRow) (r : AppCleanRow)
    (h : r ∈ rows) : r.persid ∈ appKeys (create_app_nodes g rows) := by
  induction rows generalizing g with
  | nil => cases h
  | cons a rows ih =>
    rw [create_app_nodes_cons]
    rcases List.mem_cons.mp h with h1 | h2
    · subst h1
      exact appKeys_app_phase_mono (create_app_node_row g r) rows r.persid
        (appKeys_app_row_mem g r)
    · exact ih (create_app_node_row g a) h2

lemma appKeys_app_phase_stable (g : Graph) (rows : List AppCleanRow)
    (h : ∀ r ∈ rows, r.persid ∈ appKeys g) :
    appKeys (create_app_nodes g rows) = appKeys g := by
  induction rows generalizing g with
  | nil => rfl
  | cons r rows ih =>
    rw [create_app_nodes_cons]
    have hstep : appKeys (create_app_node_row g r) = appKeys g := by
      rw [appKeys_app_row, if_pos (h r (List.mem_cons_self r rows))]
    rw [ih (create_app_node_row g r) (fun x hx => by
      rw [hstep]
      exact h x (List.mem_cons_of_mem r hx)), hstep]

lemma org_row_frame (g : Graph) (r : OrgCleanRow) :
    (create_org_node_and_rels_row g r).apps = g.apps ∧
    (create_org_node_and_rels_row g r).ahds = g.ahds ∧
    (create_org_node_and_rels_row g r).hits = g.hits ∧
    (create_org_node_and_rels_row g r).similar = g.similar := by
  unfold create_org_node_and_rels_row
  split <;> exact ⟨rfl, rfl, rfl, rfl⟩

lemma org_row_skip (g : Graph) (r : OrgCleanRow) (h : r.appPersid ∉ appKeys g) :
    create_org_node_and_rels_row g r = g := by
  have h' : r.appPersid ∉ List.map Prod.fst g.apps := h
  unfold create_org_node_and_rels_row
  rw [if_neg h']

lemma org_row_ensure (g : Graph) (r : OrgCleanRow) (h : r.appPersid ∈ appKeys g) :
    r.cmdbName ∈ orgKeys (create_org_node_and_rels_row g r) ∧
    (r.appPersid, r.cmdbName) ∈ (create_org_node_and_rels_row g r).usedBy := by
  have h' : r.appPersid ∈ List.map Prod.fst g.apps := h
  unfold create_org_node_and_rels_row
  rw [if_pos h']
  constructor
  · show r.cmdbName ∈ (mergeNode g.orgs r.cmdbName _ _).map Prod.fst
    rw [mergeNode_map_fst]
    split
    · assumption
    · simp
  · show (r.appPersid, r.cmdbName) ∈
      (if (r.appPersid, r.cmdbName) ∈ g.usedBy then g.usedBy
        else g.usedBy ++ [(r.appPersid, r.cmdbName)])
    split
    · assumption
    · simp

lemma org_row_mono (g : Graph) (r : OrgCleanRow) :
    (∀ k ∈ orgKeys g, k ∈ orgKeys (create_org_node_and_rels_row g r)) ∧
    (∀ e ∈ g.usedBy, e ∈ (create_org_node_and_rels_row g r).usedBy) := by
  unfold create_org_node_and_rels_row
  split
  · constructor
    · intro k hk
      show k ∈ (mergeNode g.orgs r.cmdbName _ _).map Prod.fst
      rw [mergeNode_map_fst]
      split
      · exact hk
      · exact List.mem_append_left _ hk
    · intro e he
      show e ∈ (if (r.appPersid, r.cmdbName) ∈ g.usedBy then g.usedBy
        else g.usedBy ++ [(r.appPersid, r.cmdbName)])
      split
      · exact he
      · exact List.mem_append_left _ he
  · exact ⟨fun k hk => hk, fun e he => he⟩

lemma org_row_noop (g : Graph) (r : OrgCleanRow)
    (h : r.appPersid ∈ appKeys g → r.cmdbName ∈ orgKeys g ∧ (r.appPersid, r.cmdbName) ∈ g.usedBy) :
    orgKeys (create_org_node_and_rels_row g r) = orgKeys g ∧
    (create_org_node_and_rels_row g r).usedBy = g.usedBy := by
  by_cases hp : r.appPersid ∈ appKeys g
  · obtain ⟨h1, h2⟩ := h hp
    have hp' : r.appPersid ∈ List.map Prod.fst g.apps := hp
    unfold create_org_node_and_rels_row
    rw [if_pos hp']
    constructor
    · show (mergeNode g.orgs r.cmdbName _ _).map Prod.fst = _
      have h1' : r.cmdbName ∈ List.map Prod.fst g.orgs := h1
      rw [mergeNode_map_fst, if_pos h1']
      rfl
    · show (if (r.appPersid, r.cmdbName) ∈ g.usedBy then g.usedBy
        else g.usedBy ++ [(r.appPersid, r.cmdbName)]) = g.usedBy
      rw [if_pos h2]
  · rw [org_row_skip g r hp]
    exact ⟨rfl, rfl⟩

lemma org_phase_frame (g : Graph) (rows : List OrgCleanRow) :
    (create_org_nodes_and_rels g rows).apps = g.apps ∧
    (create_org_nodes_and_rels g rows).ahds = g.ahds ∧
    (create_org_nodes_and_rels g rows).hits = g.hits ∧
    (create_org_nodes_and_rels g rows).similar = g.similar := by
  induction rows generalizing g with
  | nil => exact ⟨rfl, rfl, rfl, rfl⟩
  | cons r rows ih =>
    rw [create_org_phase_cons]
    obtain ⟨f1, f2, f3, f4⟩ := org_row_frame g r
    obtain ⟨i1, i2, i3, i4⟩ := ih (create_org_node_and_rels_row g r)
    exact ⟨i1.trans f1, i2.trans f2, i3.trans f3, i4.trans f4⟩

lemma org_phase_appKeys (g : Graph) (rows : List OrgCleanRow) :
    appKeys (create_org_nodes_and_rels g rows) = appKeys g := by
  show (create_org_nodes_and_rels g rows).apps.map Prod.fst = _
  rw [(org_phase_frame g rows).1]
  rfl

lemma org_phase_mono (g : Graph) (rows : List OrgCleanRow) :
    (∀ k ∈ orgKeys g, k ∈ orgKeys (create_org_nodes_and_rels g rows)) ∧
    (∀ e ∈ g.usedBy, e ∈ (create_org_nodes_and_rels g rows).usedBy) := by
  induction rows generalizing g with
  | nil => exact ⟨fun k hk => hk, fun e he => he⟩
  | cons r rows ih =>
    rw [create_org_phase_cons]
    obtain ⟨m1, m2⟩ := org_row_mono g r
    obtain ⟨i1, i2⟩ := ih (create_org_node_and_rels_row g r)
    exact ⟨fun k hk => i1 k (m1 k hk), fun e he => i2 e (m2 e he)⟩

lemma org_phase_ensure (g : Graph) (rows : List OrgCleanRow) :
    ∀ r ∈ rows, r.appPersid ∈ appKeys g →
      r.cmdbName ∈ orgKeys (create_org_nodes_and_rels g rows) ∧
      (r.appPersid, r.cmdbName) ∈ (create_org_nodes_and_rels g rows).usedBy := by
  induction rows generalizing g with
  | nil => intro r hr; cases hr
  | cons a rows ih =>
    intro r hr hp
    rw [create_org_phase_cons]
    rcases List.mem_cons.mp hr with h1 | h2
    · subst h1
      obtain ⟨e1, e2⟩ := org_row_ensure g r hp
      obtain ⟨m1, m2⟩ := org_phase_mono (create_org_node_and_rels_row g r) rows
      exact ⟨m1 _ e1, m2 _ e2⟩
    · apply ih (create_org_node_and_rels_row g a) r h2
      show r.appPersid ∈ (create_org_node_and_rels_row g a).apps.map Prod.fst
      rw [(org_row_frame g a).1]
      exact hp

lemma org_phase_stable (g : Graph) (rows : List OrgCleanRow)
    (h : ∀ r ∈ rows, r.appPersid ∈ appKeys g →
      r.cmdbName ∈ orgKeys g ∧ (r.appPersid, r.cmdbName) ∈ g.usedBy) :
    orgKeys (create_org_nodes_and_rels g rows) = orgKeys g ∧
    (create_org_nodes_and_rels g rows).usedBy = g.usedBy := by
  induction rows generalizing g with
  | nil => exact ⟨rfl, rfl⟩
  | cons r rows ih =>
    rw [create_org_phase_cons]
    obtain ⟨n1, n2⟩ := org_row_noop g r (h r (List.mem_cons_self r rows))
    have hp : appKeys (create_org_node_and_rels_row g r) = appKeys g := by
      show (create_org_node_and_rels_row g r).apps.map Prod.fst = _
      rw [(org_row_frame g r).1]
      rfl
    obtain ⟨s1, s2⟩ := ih (create_org_node_and_rels_row g r)
      (fun x hx hxp => by
        rw [n1, n2]
        exact h x (List.mem_cons_of_mem r hx) (by rw [hp] at hxp; exact hxp))
    exact ⟨s1.trans n1, s2.trans n2⟩

lemma ahd_row_frame (g : Graph) (r : AhdCleanRow) :
    (create_ahd_node_and_rels_row g r).apps = g.apps ∧
    (create_ahd_node_and_rels_row g r).orgs = g.orgs ∧
    (create_ahd_node_and_rels_row g r).usedBy = g.usedBy ∧
    (create_ahd_node_and_rels_row g r).similar = g.similar := by
  unfold create_ahd_node_and_rels_row
  split <;> exact ⟨rfl, rfl, rfl, rfl⟩

lemma ahd_row_skip (g : Graph) (r : AhdCleanRow) (h : r.appPersid ∉ appKeys g) :
    create_ahd_node_and_rels_row g r = g := by
  have h' : r.appPersid ∉ List.map Prod.fst g.apps := h
  unfold create_ahd_node_and_rels_row
  rw [if_neg h']

lemma ahd_row_ensure (g : Graph) (r : AhdCleanRow) (h : r.appPersid ∈ appKeys g) :
    r.name ∈ ahdKeys (create_ahd_node_and_rels_row g r) ∧
    (r.appPersid, r.name) ∈ hitKeys (create_ahd_node_and_rels_row g r) := by
  have h' : r.appPersid ∈ List.map Prod.fst g.apps := h
  unfold create_ahd_node_and_rels_row
  rw [if_pos h']
  constructor
  · show r.name ∈ (if r.name ∈ g.ahds.map Prod.fst then _ else _ : List (String × Props)).map Prod.fst
    split
    · rw [map_fst_update g.ahds r.name
        (fun n => setProp n.2 "PERSID" (mapAccess (ahdFields r) "PERSID"))]
      assumption
    · simp
  · show (r.appPersid, r.name)
      ∈ (if (r.appPersid, r.name) ∈ g.hits.map Prod.fst then _ else _ :
        List ((Nat × String) × Value)).map Prod.fst
    split
    · rw [map_fst_update g.hits (r.appPersid, r.name)
        (fun _ => mapAccess (ahdFields r) "AHDhits")]
      assumption
    · simp

lemma ahd_row_mono (g : Graph) (r : AhdCleanRow) :
    (∀ k ∈ ahdKeys g, k ∈ ahdKeys (create_ahd_node_and_rels_row g r)) ∧
    (∀ e ∈ hitKeys g, e ∈ hitKeys (create_ahd_node_and_rels_row g r)) := by
  unfold create_ahd_node_and_rels_row
  split
  · constructor
    · intro k hk
      show k ∈ (if r.name ∈ g.ahds.map Prod.fst then _ else _ : List (String × Props)).map Prod.fst
      split
      · rw [map_fst_update g.ahds r.name
          (fun n => setProp n.2 "PERSID" (mapAccess (ahdFields r) "PERSID"))]
        exact hk
      · rw [List.map_append]
        exact List.mem_append_left _ hk
    · intro e he
      show e ∈ (if (r.appPersid, r.name) ∈ g.hits.map Prod.fst then _ else _ :
        List ((Nat × String) × Value)).map Prod.fst
      split
      · rw [map_fst_update g.hits (r.appPersid, r.name)
          (fun _ => mapAccess (ahdFields r) "AHDhits")]
        exact he
      · rw [List.map_append]
        exact List.mem_append_left _ he
  · exact ⟨fun k hk => hk, fun e he => he⟩

lemma ahd_row_noop (g : Graph) (r : AhdCleanRow)
    (h : r.appPersid ∈ appKeys g → r.name ∈ ahdKeys g ∧ (r.appPersid, r.name) ∈ hitKeys g) :
    ahdKeys (create_ahd_node_and_rels_row g r) = ahdKeys g ∧
    hitKeys (create_ahd_node_and_rels_row g r) = hitKeys g := by
  by_cases hp : r.appPersid ∈ appKeys g
  · obtain ⟨h1, h2⟩ := h hp
    have hp' : r.appPersid ∈ List.map Prod.fst g.apps := hp
    have h1' : r.name ∈ List.map Prod.fst g.ahds := h1
    have h2' : (r.appPersid, r.name) ∈ List.map Prod.fst g.hits := h2
    unfold create_ahd_node_and_rels_row
    rw [if_pos hp']
    constructor
    · show (if r.name ∈ g.ahds.map Prod.fst then _ else _ : List (String × Props)).map Prod.fst = _
      rw [if_pos h1', map_fst_update g.ahds r.name
        (fun n => setProp n.2 "PERSID" (mapAccess (ahdFields r) "PERSID"))]
      rfl
    · show (if (r.appPersid, r.name) ∈ g.hits.map Prod.fst then _ else _ :
        List ((Nat × String) × Value)).map Prod.fst = _
      rw [if_pos h2', map_fst_update g.hits (r.appPersid, r.name)
        (fun _ => mapAccess (ahdFields r) "AHDhits")]
      rfl
  · rw [ahd_row_skip g r hp]
    exact ⟨rfl, rfl⟩

lemma ahd_phase_frame (g : Graph) (rows : List AhdCleanRow) :
    (create_ahd_nodes_and_rels g rows).apps = g.apps ∧
    (create_ahd_nodes_and_rels g rows).orgs = g.orgs ∧
    (create_ahd_nodes_and_rels g rows).usedBy = g.usedBy ∧
    (create_ahd_nodes_and_rels g rows).similar = g.similar := by
  induction rows generalizing g with
  | nil => exact ⟨rfl, rfl, rfl, rfl⟩
  | cons r rows ih =>
    rw [create_ahd_phase_cons]
    obtain ⟨f1, f2, f3, f4⟩ := ahd_row_frame g r
    obtain ⟨i1, i2, i3, i4⟩ := ih (create_ahd_node_and_rels_row g r)
    exact ⟨i1.trans f1, i2.trans f2, i3.trans f3, i4.trans f4⟩

lemma ahd_phase_appKeys (g : Graph) (rows : List AhdCleanRow) :
    appKeys (create_ahd_nodes_and_rels g rows) = appKeys g := by
  show (create_ahd_nodes_and_rels g rows).apps.map Prod.fst = _
  rw [(ahd_phase_frame g rows).1]
  rfl

lemma ahd_phase_mono (g : Graph) (rows : List AhdCleanRow) :
    (∀ k ∈ ahdKeys g, k ∈ ahdKeys (create_ahd_nodes_and_rels g rows)) ∧
    (∀ e ∈ hitKeys g, e ∈ hitKeys (create_ahd_nodes_and_rels g rows)) := by
  induction rows generalizing g with
  | nil => exact ⟨fun k hk => hk, fun e he => he⟩
  | cons r rows ih =>
    rw [create_ahd_phase_cons]
    obtain ⟨m1, m2⟩ := ahd_row_mono g r
    obtain ⟨i1, i2⟩ := ih (create_ahd_node_and_rels_row g r)
    exact ⟨fun k hk => i1 k (m1 k hk), fun e he => i2 e (m2 e he)⟩

lemma ahd_phase_ensure (g : Graph) (rows : List AhdCleanRow) :
    ∀ r ∈ rows, r.appPersid ∈ appKeys g →
      r.name ∈ ahdKeys (create_ahd_nodes_and_rels g rows) ∧
      (r.appPersid, r.name) ∈ hitKeys (create_ahd_nodes_and_rels g rows) := by
  induction rows generalizing g with
  | nil => intro r hr; cases hr
  | cons a rows ih =>
    intro r hr hp
    rw [create_ahd_phase_cons]
    rcases List.mem_cons.mp hr with h1 | h2
    · subst h1
      obtain ⟨e1, e2⟩ := ahd_row_ensure g r hp
      obtain ⟨m1, m2⟩ := ahd_phase_mono (create_ahd_node_and_rels_row g r) rows
      exact ⟨m1 _ e1, m2 _ e2⟩
    · apply ih (create_ahd_node_and_rels_row g a) r h2
      show r.appPersid ∈ (create_ahd_node_and_rels_row g a).apps.map Prod.fst
      rw [(ahd_row_frame g a).1]
      exact hp

lemma ahd_phase_stable (g : Graph) (rows : List AhdCleanRow)
    (h : ∀ r ∈ rows, r.appPersid ∈ appKeys g →
      r.name ∈ ahdKeys g ∧ (r.appPersid, r.name) ∈ hitKeys g) :
    ahdKeys (create_ahd_nodes_and_rels g rows) = ahdKeys g ∧
    hitKeys (create_ahd_nodes_and_rels g rows) = hitKeys g := by
  induction rows generalizing g with
  | nil => exact ⟨rfl, rfl⟩
  | cons r rows ih =>
    rw [create_ahd_phase_cons]
    obtain ⟨n1, n2⟩ := ahd_row_noop g r (h r (List.mem_cons_self r rows))
    have hp : appKeys (create_ahd_node_and_rels_row g r) = appKeys g := by
      show (create_ahd_node_and_rels_row g r).apps.map Prod.fst = _
      rw [(ahd_row_frame g r).1]
      rfl
    obtain ⟨s1, s2⟩ := ih (create_ahd_node_and_rels_row g r)
      (fun x hx hxp => by
        rw [n1, n2]
        exact h x (List.mem_cons_of_mem r hx) (by rw [hp] at hxp; exact hxp))
    exact ⟨s1.trans n1, s2.trans n2⟩

lemma sim_row_frame (g : Graph) (r : SimCleanRow) :
    (create_similarity_row g r).apps = g.apps ∧
    (create_similarity_row g r).orgs = g.orgs ∧
    (create_similarity_row g r).ahds = g.ahds ∧
    (create_similarity_row g r).usedBy = g.usedBy ∧
    (create_similarity_row g r).hits = g.hits := by
  unfold create_similarity_row
  split <;> exact ⟨rfl, rfl, rfl, rfl, rfl⟩

lemma sim_row_skip (g : Graph) (r : SimCleanRow)
    (h : ¬ (r.persid1 ∈ appKeys g ∧ r.persid2 ∈ appKeys g)) :
    create_similarity_row g r = g := by
  have h' : ¬ (r.persid1 ∈ List.map Prod.fst g.apps ∧ r.persid2 ∈ List.map Prod.fst g.apps) := h
  unfold create_similarity_row
  rw [if_neg h']

lemma sim_row_ensure (g : Graph) (r : SimCleanRow)
    (h : r.persid1 ∈ appKeys g ∧ r.persid2 ∈ appKeys g) :
    (r.persid1, r.persid2) ∈ simKeys (create_similarity_row g r) := by
  have h' : r.persid1 ∈ List.map Prod.fst g.apps ∧ r.persid2 ∈ List.map Prod.fst g.apps := h
  unfold create_similarity_row
  rw [if_pos h']
  show (r.persid1, r.persid2) ∈ (if (r.persid1, r.persid2) ∈ g.similar.map Prod.fst then _
    else _ : List ((Nat × Nat) × (Value × Value))).map Prod.fst
  split
  · rw [map_fst_update g.similar (r.persid1, r.persid2)
      (fun _ => (mapAccess (simFields r) "similaritybertcomp", mapAccess (simFields r) "CompID"))]
    assumption
  · simp

lemma sim_row_mono (g : Graph) (r : SimCleanRow) :
    ∀ e ∈ simKeys g, e ∈ simKeys (create_similarity_row g r) := by
  unfold create_similarity_row
  split
  · intro e he
    show e ∈ (if (r.persid1, r.persid2) ∈ g.similar.map Prod.fst then _
      else _ : List ((Nat × Nat) × (Value × Value))).map Prod.fst
    split
    · rw [map_fst_update g.similar (r.persid1, r.persid2)
        (fun _ => (mapAccess (simFields r) "similaritybertcomp",
          mapAccess (simFields r) "CompID"))]
      exact he
    · rw [List.map_append]
      exact List.mem_append_left _ he
  · exact fun e he => he

lemma sim_row_noop (g : Graph) (r : SimCleanRow)
    (h : r.persid1 ∈ appKeys g ∧ r.persid2 ∈ appKeys g →
      (r.persid1, r.persid2) ∈ simKeys g) :
    simKeys (create_similarity_row g r) = simKeys g := by
  by_cases hp : r.persid1 ∈ appKeys g ∧ r.persid2 ∈ appKeys g
  · have h2 := h hp
    have hp' : r.persid1 ∈ List.map Prod.fst g.apps ∧ r.persid2 ∈ List.map Prod.fst g.apps := hp
    have h2' : (r.persid1, r.persid2) ∈ List.map Prod.fst g.similar := h2
    unfold create_similarity_row
    rw [if_pos hp']
    show (if (r.persid1, r.persid2) ∈ g.similar.map Prod.fst then _
      else _ : List ((Nat × Nat) × (Value × Value))).map Prod.fst = _
    rw [if_pos h2', map_fst_update g.similar (r.persid1, r.persid2)
      (fun _ => (mapAccess (simFields r) "similaritybertcomp",
        mapAccess (simFields r) "CompID"))]
    rfl
  · rw [sim_row_skip g r hp]

lemma sim_phase_frame (g : Graph) (rows : List SimCleanRow) :
    (create_similarity_connectedcomps_rels g rows).apps = g.apps ∧
    (create_similarity_connectedcomps_rels g rows).orgs = g.orgs ∧
    (create_similarity_connectedcomps_rels g rows).ahds = g.ahds ∧
    (create_similarity_connectedcomps_rels g rows).usedBy = g.usedBy ∧
    (create_similarity_connectedcomps_rels g rows).hits = g.hits := by
  induction rows generalizing g with
  | nil => exact ⟨rfl, rfl, rfl, rfl, rfl⟩
  | cons r rows ih =>
    rw [create_sim_phase_cons]
    obtain ⟨f1, f2, f3, f4, f5⟩ := sim_row_frame g r
    obtain ⟨i1, i2, i3, i4, i5⟩ := ih (create_similarity_row g r)
    exact ⟨i1.trans f1, i2.trans f2, i3.trans f3, i4.trans f4, i5.trans f5⟩

lemma sim_phase_appKeys (g : Graph) (rows : List SimCleanRow) :
    appKeys (create_similarity_connectedcomps_rels g rows) = appKeys g := by
  show (create_similarity_connectedcomps_rels g rows).apps.map Prod.fst = _
  rw [(sim_phase_frame g rows).1]
  rfl

lemma sim_phase_mono (g : Graph) (rows : List SimCleanRow) :
    ∀ e ∈ simKeys g, e ∈ simKeys (create_similarity_connectedcomps_rels g rows) := by
  induction rows generalizing g with
  | nil => exact fun e he => he
  | cons r rows ih =>
    rw [create_sim_phase_cons]
    exact fun e he => ih (create_similarity_row g r) e (sim_row_mono g r e he)

lemma sim_phase_ensure (g : Graph) (rows : List SimCleanRow) :
    ∀ r ∈ rows, r.persid1 ∈ appKeys g ∧ r.persid2 ∈ appKeys g →
      (r.persid1, r.persid2) ∈ simKeys (create_similarity_connectedcomps_rels g rows) := by
  induction rows generalizing g with
  | nil => intro r hr; cases hr
  | cons a rows ih =>
    intro r hr hp
    rw [create_sim_phase_cons]
    rcases List.mem_cons.mp hr with h1 | h2
    · subst h1
      exact sim_phase_mono (create_similarity_row g r) rows _ (sim_row_ensure g r hp)
    · apply ih (create_similarity_row g a) r h2
      have hfr : (create_similarity_row g a).apps = g.apps := (sim_row_frame g a).1
      constructor
      · show r.persid1 ∈ (create_similarity_row g a).apps.map Prod.fst
        rw [hfr]
        exact hp.1
      · show r.persid2 ∈ (create_similarity_row g a).apps.map Prod.fst
        rw [hfr]
        exact hp.2

lemma sim_phase_stable (g : Graph) (rows : List SimCleanRow)
    (h : ∀ r ∈ rows, r.persid1 ∈ appKeys g ∧ r.persid2 ∈ appKeys g →
      (r.persid1, r.persid2) ∈ simKeys g) :
    simKeys (create_similarity_connectedcomps_rels g rows) = simKeys g := by
  induction rows generalizing g with
  | nil => rfl
  | cons r rows ih =>
    rw [create_sim_phase_cons]
    have n1 := sim_row_noop g r (h r (List.mem_cons_self r rows))
    have hp : appKeys (create_similarity_row g r) = appKeys g := by
      show (create_similarity_row g r).apps.map Prod.fst = _
      rw [(sim_row_frame g r).1]
      rfl
    have s1 := ih (create_similarity_row g r)
      (fun x hx hxp => by
        rw [n1]
        exact h x (List.mem_cons_of_mem r hx) (by rw [hp] at hxp; exact hxp))
    exact s1.trans n1

/-- Claim C9.  Running the full load phase a second time against the
same cleaned CSVs and the graph state left by the first run changes
neither the nodes nor the relationships of the store: every write is a
merge keyed by the node's/edge's merge key, so the second run finds
every key already present and creates nothing new — the key lists (and
hence the sets and counts of nodes and relationships) are identical. -/
theorem claimC9 (g : Graph) (f : CleanFiles) :
    keyState (run_load (run_load g f) f) = keyState (run_load g f) := by
  have hrunEq : ∀ G : Graph, run_load G f
      = create_similarity_connectedcomps_rels
          (create_ahd_nodes_and_rels
            (create_org_nodes_and_rels (create_app_nodes G f.apps) f.orgs) f.ahds)
          f.sims := fun G => rfl
  rw [hrunEq, hrunEq]
  set g1 := create_app_nodes g f.apps with hg1
  set g2 := create_org_nodes_and_rels g1 f.orgs with hg2
  set g3 := create_ahd_nodes_and_rels g2 f.ahds with hg3
  set g4 := create_similarity_connectedcomps_rels g3 f.sims with hg4
  set h1 := create_app_nodes g4 f.apps with hh1
  set h2 := create_org_nodes_and_rels h1 f.orgs with hh2
  set h3 := create_ahd_nodes_and_rels h2 f.ahds with hh3
  set h4 := create_similarity_connectedcomps_rels h3 f.sims with hh4
  -- the apps list is untouched after the app phase
  have e21 : g2.apps = g1.apps := (org_phase_frame g1 f.orgs).1
  have e32 : g3.apps = g2.apps := (ahd_phase_frame g2 f.ahds).1
  have e43 : g4.apps = g3.apps := (sim_phase_frame g3 f.sims).1
  have appK41 : appKeys g4 = appKeys g1 := by
    show g4.apps.map Prod.fst = g1.apps.map Prod.fst
    rw [e43, e32, e21]
  have appK21 : appKeys g2 = appKeys g1 := by
    show g2.apps.map Prod.fst = g1.apps.map Prod.fst
    rw [e21]
  have appK31 : appKeys g3 = appKeys g1 := by
    show g3.apps.map Prod.fst = g1.apps.map Prod.fst
    rw [e32, e21]
  -- second app phase: every app key is already present
  have appKh1 : appKeys h1 = appKeys g4 :=
    appKeys_app_phase_stable g4 f.apps (fun r hr => by
      rw [appK41]
      exact appKeys_app_phase_mem g f.apps r hr)
  obtain ⟨h1orgs, h1ahds, h1usedBy, h1hits, h1similar⟩ := app_phase_frame g4 f.apps
  -- orgs / usedBy of g4 are those produced by the first org phase
  have og42 : g4.orgs = g2.orgs := by
    rw [(sim_phase_frame g3 f.sims).2.1, (ahd_phase_frame g2 f.ahds).2.1]
  have ub42 : g4.usedBy = g2.usedBy := by
    rw [(sim_phase_frame g3 f.sims).2.2.2.1, (ahd_phase_frame g2 f.ahds).2.2.1]
  -- second org phase is key-stable
  have orgStable := org_phase_stable h1 f.orgs (fun r hr hp => by
    have hp1 : r.appPersid ∈ appKeys g1 := by
      rw [appKh1, appK41] at hp
      exact hp
    obtain ⟨e1, e2⟩ := org_phase_ensure g1 f.orgs r hr hp1
    constructor
    · show r.cmdbName ∈ h1.orgs.map Prod.fst
      rw [h1orgs, og42]
      exact e1
    · rw [h1usedBy, ub42]
      exact e2)
  obtain ⟨orgKh2, ubh2⟩ := orgStable
  obtain ⟨h2apps, h2ahds, h2hits, h2similar⟩ := org_phase_frame h1 f.orgs
  -- ahds / hits of g4 are those produced by the first ahd phase
  have ah43 : g4.ahds = g3.ahds := (sim_phase_frame g3 f.sims).2.2.1
  have ht43 : g4.hits = g3.hits := (sim_phase_frame g3 f.sims).2.2.2.2
  have appKh2 : appKeys h2 = appKeys g1 := by
    show h2.apps.map Prod.fst = _
    rw [h2apps]
    show appKeys h1 = _
    rw [appKh1, appK41]
  -- second ahd phase is key-stable
  have ahdStable := ahd_phase_stable h2 f.ahds (fun r hr hp => by
    have hp2 : r.appPersid ∈ appKeys g2 := by
      rw [appKh2] at hp
      rw [appK21]
      exact hp
    obtain ⟨e1, e2⟩ := ahd_phase_ensure g2 f.ahds r hr hp2
    constructor
    · show r.name ∈ h2.ahds.map Prod.fst
      rw [h2ahds, h1ahds, ah43]
      exact e1
    · show (r.appPersid, r.name) ∈ h2.hits.map Prod.fst
      rw [h2hits, h1hits, ht43]
      exact e2)
  obtain ⟨ahdKh3, hitKh3⟩ := ahdStable
  obtain ⟨h3apps, h3orgs, h3usedBy, h3similar⟩ := ahd_phase_frame h2 f.ahds
  have appKh3 : appKeys h3 = appKeys g1 := by
    show h3.apps.map Prod.fst = _
    rw [h3apps]
    exact appKh2
  -- similar of h3 is still the one produced by the first sim phase
  have simh3 : h3.similar = g4.similar := by
    rw [h3similar, h2similar, h1similar]
  -- second sim phase is key-stable
  have simStable := sim_phase_stable h3 f.sims (fun r hr hp => by
    have hp3 : r.persid1 ∈ appKeys g3 ∧ r.persid2 ∈ appKeys g3 := by
      rw [appK31]
      rw [appKh3] at hp
      exact hp
    have e1 := sim_phase_ensure g3 f.sims r hr hp3
    show (r.persid1, r.persid2) ∈ h3.similar.map Prod.fst
    rw [simh3]
    exact e1)
  obtain ⟨h4apps, h4orgs, h4ahds, h4usedBy, h4hits⟩ := sim_phase_frame h3 f.sims
  -- assemble the six components
  have cApp : appKeys h4 = appKeys g4 := by
    show h4.apps.map Prod.fst = _
    rw [h4apps]
    show appKeys h3 = _
    rw [appKh3, appK41]
  have cOrg : orgKeys h4 = orgKeys g4 := by
    show h4.orgs.map Prod.fst = _
    rw [h4orgs, h3orgs]
    show orgKeys h2 = _
    rw [orgKh2]
    show h1.orgs.map Prod.fst = _
    rw [h1orgs]
    rfl
  have cAhd : ahdKeys h4 = ahdKeys g4 := by
    show h4.ahds.map Prod.fst = _
    rw [h4ahds]
    show ahdKeys h3 = _
    rw [ahdKh3]
    show h2.ahds.map Prod.fst = _
    rw [h2ahds, h1ahds]
    rfl
  have cUsed : h4.usedBy = g4.usedBy := by
    rw [h4usedBy, h3usedBy, ubh2, h1usedBy]
  have cHit : hitKeys h4 = hitKeys g4 := by
    show h4.hits.map Prod.fst = _
    rw [h4hits]
    show hitKeys h3 = _
    rw [hitKh3]
    show h2.hits.map Prod.fst = _
    rw [h2hits, h1hits]
    rfl
  have cSim : simKeys h4 = simKeys g4 := by
    rw [simStable]
    show h3.similar.map Prod.fst = _
    rw [simh3]
    rfl
  rw [keyState_eq, keyState_eq, cApp, cOrg, cAhd, cUsed, cHit, cSim]
